import Mathlib

/-!
# Playlist engine (`src/playlist/engine.c`)

A shallow embedding of the playlist scheduler of `engine.c`: the session slot
helpers (`playlist_release_current_input`, `playlist_set_current_input`), the
status accessors and the supervisory tick `playlist_MainLoop`.

Conventions of the embedding.

* The playlist's private data is the record `playlist_private_t`; pointers that
  may be `NULL` are `Option`s, `mtime_t` and `int` are `Int` (the clock is a
  64-bit microsecond counter, no wrap-around is reachable).
* The playlist lock is the boolean `locked`; `PL_ASSERT_LOCKED` and `assert`
  abort the run, which is the outcome `assert_failed` carrying the state at
  the failing assertion.
* Functions called by `engine.c` but defined elsewhere (`ResetCurrentlyPlaying`,
  `input_StopThread`, `input_DetachSout`, `playlist_NextItem`,
  `playlist_PlayItem`), the constant `DEFAULT_INPUT_ACTIVITY` and what the other
  threads do while the loop sleeps with the lock dropped are the fields of
  `Env`: every theorem holds for all of them.
* Every call that leaves `engine.c` is appended to a trace of `Event`s, so that
  statements about which calls a tick makes, and in which state, can be read
  off the result.
* What the other threads do while the lock is dropped is modelled where the
  loop waits for it, in the sleep of the dying branch. The lock is also dropped
  inside `playlist_release_current_input` around the join of the input thread;
  there the embedding keeps the effect of the function itself.
* The `goto check_input` loop is iterated with fuel: `check_input_pass` is one
  pass from the label to the next `goto` or `return`, `check_input` repeats it.
-/

namespace Playlist

/-- Handle of a stream output instance (`sout_instance_t *`). -/
abbrev sout_instance_t := Nat

/-- The fields of a playlist item that `engine.c` reads. -/
structure playlist_item_t where
  i_id : Int
  i_flags : Nat
deriving DecidableEq, Repr

/-- An input thread as seen from `engine.c`: the four lifecycle flags, its
`sout-keep` variable, and `priv` for everything private to the input. -/
structure input_thread_t where
  b_die : Bool
  b_dead : Bool
  b_error : Bool
  b_eof : Bool
  sout_keep : Bool
  priv : Nat
deriving DecidableEq, Repr

/-- The `status` member: current item, current node, current status. -/
structure status_t where
  p_item : Option playlist_item_t
  p_node : Option playlist_item_t
  i_status : Int
deriving DecidableEq, Repr

/-- The `request` member: pending flag, requested status, requested item and
node. -/
structure request_t where
  b_request : Bool
  i_status : Int
  p_item : Option playlist_item_t
  p_node : Option playlist_item_t
deriving DecidableEq, Repr

/-- Modelled from the spec: the status `PLAYLIST_STOPPED`, an enumerator declared
outside `engine.c`; the spec lists the statuses Stopped and Running, in this
order. The theorems use it by name only. -/
def PLAYLIST_STOPPED : Int := 0

/-- Modelled from the spec: the status `PLAYLIST_RUNNING`, the enumerator after
`PLAYLIST_STOPPED`. -/
def PLAYLIST_RUNNING : Int := 1

/-- The private data of the playlist used by `engine.c`, with the object
variables `play-and-exit`, `random` and `activity` as fields. -/
structure playlist_private_t where
  locked : Bool
  b_reset_currently_playing : Bool
  last_rebuild_date : Int
  current : List playlist_item_t
  i_current_index : Int
  p_input : Option input_thread_t
  p_sout : Option sout_instance_t
  request : request_t
  status : status_t
  var_play_and_exit : Bool
  var_random : Bool
  var_activity : Int
deriving DecidableEq, Repr

/-- Calls that leave `engine.c`, in the order they are made. `playlist_PlayItem`
records the content of the session slot at the moment of the call. -/
inductive Event where
  | ResetCurrentlyPlaying (b_random : Bool) (p_cur : Option playlist_item_t)
  | input_StopThread (p_input : input_thread_t)
  | input_DetachSout (p_input : input_thread_t)
  | var_DelCallback (p_input : input_thread_t)
  | vlc_thread_join (p_input : input_thread_t)
  | vlc_object_release (p_input : input_thread_t)
  | vlc_object_hold (p_input : input_thread_t)
  | var_AddCallback (p_input : input_thread_t)
  | msleep
  | playlist_NextItem (p_item : Option playlist_item_t)
  | playlist_PlayItem (p_item : playlist_item_t) (slot : Option input_thread_t)
  | vlc_object_kill
deriving DecidableEq, Repr

/-- The playlist data together with the trace of calls made so far. -/
structure World where
  pl : playlist_private_t
  trace : List Event
deriving DecidableEq, Repr

/-- What `engine.c` uses and does not define. -/
structure Env where
  /-- the constant subtracted from `activity` when an input is removed -/
  DEFAULT_INPUT_ACTIVITY : Int
  /-- `ResetCurrentlyPlaying( p_playlist, b_random, p_cur )` -/
  ResetCurrentlyPlaying :
    Bool → Option playlist_item_t → playlist_private_t → playlist_private_t
  /-- `input_StopThread( p_input )`, acting on the input object -/
  input_StopThread : input_thread_t → input_thread_t
  /-- `input_DetachSout( p_input )`: the pipeline handed out, possibly `NULL`
  (the input is released right after the call, what the call did to it is not
  read again) -/
  input_DetachSout : input_thread_t → Option sout_instance_t
  /-- `playlist_NextItem( p_playlist )`: the item chosen and the playlist after -/
  playlist_NextItem : playlist_private_t → Option playlist_item_t × playlist_private_t
  /-- `playlist_PlayItem( p_playlist, p_item )` -/
  playlist_PlayItem : playlist_item_t → playlist_private_t → playlist_private_t
  /-- what the other threads do to the playlist during
  `PL_UNLOCK; msleep( INTF_IDLE_SLEEP ); PL_LOCK` -/
  msleep : playlist_private_t → playlist_private_t

/-- Result of one pass through the body of `playlist_MainLoop`. -/
inductive Step where
  | goto_check_input (w : World)
  | returned (w : World)
  | assert_failed (w : World)
deriving DecidableEq, Repr

/-- Result of a call of one of the helpers of `engine.c`, which do not loop. -/
inductive Ret where
  | returned (w : World)
  | assert_failed (w : World)
deriving DecidableEq, Repr

/-- Result of running `playlist_MainLoop`. -/
inductive Outcome where
  | returned (w : World)
  | assert_failed (w : World)
  | out_of_fuel (w : World)
deriving DecidableEq, Repr

/-- The state a pass ended in. -/
def Step.world : Step → World
  | .goto_check_input w => w
  | .returned w => w
  | .assert_failed w => w

/-- The state a run ended in. -/
def Outcome.world : Outcome → World
  | .returned w => w
  | .assert_failed w => w
  | .out_of_fuel w => w

/-- `playlist_release_current_input` (engine.c:204-221). -/
def playlist_release_current_input (w : World) : Ret :=
  -- PL_ASSERT_LOCKED
  if w.pl.locked = false then .assert_failed w
  else
    match w.pl.p_input with
    -- if( !pl_priv(p_playlist)->p_input ) return;
    | none => .returned w
    | some p_input =>
      -- var_DelCallback; p_input = NULL; PL_UNLOCK; join; release; PL_LOCK
      .returned
        { pl := { w.pl with p_input := none, locked := true }
          trace := w.trace ++ [Event.var_DelCallback p_input,
                               Event.vlc_thread_join p_input,
                               Event.vlc_object_release p_input] }

/-- `playlist_set_current_input` (engine.c:223-237). -/
def playlist_set_current_input (w : World) (p_input : Option input_thread_t) : Ret :=
  -- PL_ASSERT_LOCKED
  if w.pl.locked = false then .assert_failed w
  else
    match playlist_release_current_input w with
    | .returned w1 =>
      match p_input with
      | some i =>
        .returned
          { pl := { w1.pl with p_input := some i }
            trace := w1.trace ++ [Event.vlc_object_hold i, Event.var_AddCallback i] }
      | none => .returned w1
    | .assert_failed w1 => .assert_failed w1

/-- `get_current_status_item` (engine.c:257-262); `none` is the failed
`PL_ASSERT_LOCKED`. -/
def get_current_status_item (w : World) : Option (Option playlist_item_t) :=
  if w.pl.locked = false then none else some w.pl.status.p_item

/-- `set_current_status_item` (engine.c:271-284). The `if` on the removal flag of
the previous item has an empty body in the source (the deletion is commented
out), so only the final assignment has an effect. -/
def set_current_status_item (w : World) (p_item : Option playlist_item_t) : Ret :=
  -- PL_ASSERT_LOCKED
  if w.pl.locked = false then .assert_failed w
  else .returned { w with pl := { w.pl with status := { w.pl.status with p_item := p_item } } }

/-- The target status computed at engine.c:380-381:
`request.b_request ? request.i_status : status.i_status`. -/
def target_status (pl : playlist_private_t) : Int :=
  if pl.request.b_request then pl.request.i_status else pl.status.i_status

/-- Entry of `playlist_MainLoop` up to the label `check_input`
(engine.c:311-321). `t_check` is the value of the first `mdate()` (in the
condition), `t_stamp` that of the second one (stored in `last_rebuild_date`). -/
def MainLoop_enter (env : Env) (t_check t_stamp : Int) (w : World) : Step :=
  -- PL_ASSERT_LOCKED
  if w.pl.locked = false then .assert_failed w
  else if w.pl.b_reset_currently_playing = true
          ∧ t_check - w.pl.last_rebuild_date > 30000 then
    match get_current_status_item w with
    | none => .assert_failed w
    | some p_cur =>
      .goto_check_input
        { pl := { env.ResetCurrentlyPlaying w.pl.var_random p_cur w.pl with
                    last_rebuild_date := t_stamp }
          trace := w.trace ++ [Event.ResetCurrentlyPlaying w.pl.var_random p_cur] }
  else .goto_check_input w

/-- The request test of engine.c:329-333: with a pending request and an input
whose `b_die` is clear, `input_StopThread` is called on the input. Returns the
state after the test. -/
def stop_for_request (env : Env) (w : World) (p_input : input_thread_t) : World :=
  if w.pl.request.b_request = true ∧ p_input.b_die = false then
    { pl := { w.pl with p_input := some (env.input_StopThread p_input) }
      trace := w.trace ++ [Event.input_StopThread p_input] }
  else w

/-- The input object behind the local pointer `p_input` after the request test
of engine.c:329-333: the flags the tests of engine.c:336-364 read. -/
def input_after_request (env : Env) (w : World) (p_input : input_thread_t) :
    input_thread_t :=
  if w.pl.request.b_request = true ∧ p_input.b_die = false then
    env.input_StopThread p_input
  else p_input

/-- The branch `if( p_input->b_dead )` of engine.c:336-353, for the input
`p_input` in the slot. -/
def remove_dead_input (env : Env) (w : World) (p_input : input_thread_t) : Step :=
  -- assert( *pp_sout == NULL )
  if w.pl.p_sout ≠ none then .assert_failed w
  else
    -- if( var_CreateGetBool( p_input, "sout-keep" ) ) *pp_sout = input_DetachSout( p_input )
    let w1 : World :=
      if p_input.sout_keep = true then
        { pl := { w.pl with p_sout := env.input_DetachSout p_input }
          trace := w.trace ++ [Event.input_DetachSout p_input] }
      else w
    match playlist_release_current_input w1 with
    | .returned w2 =>
      let i_activity := w2.pl.var_activity
      .goto_check_input
        { w2 with pl := { w2.pl with
                            var_activity := i_activity - env.DEFAULT_INPUT_ACTIVITY } }
    | .assert_failed w2 => .assert_failed w2

/-- One pass of `playlist_MainLoop` from the label `check_input`
(engine.c:323-407) to the next `goto check_input` or to the return. -/
def check_input_pass (env : Env) (b_playexit : Bool) (w : World) : Step :=
  match w.pl.p_input with
  | some p_input0 =>
    let w1 := stop_for_request env w p_input0
    let p_input := input_after_request env w p_input0
    if p_input.b_dead = true then
      remove_dead_input env w1 p_input
    else if p_input.b_die = true then
      -- PL_UNLOCK; msleep( INTF_IDLE_SLEEP ); PL_LOCK
      .goto_check_input
        { pl := { env.msleep { w1.pl with locked := false } with locked := true }
          trace := w1.trace ++ [Event.msleep] }
    else if p_input.b_error = true ∨ p_input.b_eof = true then
      .goto_check_input
        { pl := { w1.pl with p_input := some (env.input_StopThread p_input) }
          trace := w1.trace ++ [Event.input_StopThread p_input] }
    else .returned w1
  | none =>
    let i_status := target_status w.pl
    if i_status ≠ PLAYLIST_STOPPED then
      let r := env.playlist_NextItem w.pl
      let w1 : World := { pl := r.2, trace := w.trace ++ [Event.playlist_NextItem r.1] }
      match r.1 with
      | none =>
        let w2 : World :=
          { w1 with pl := { w1.pl with
                              status := { w1.pl.status with i_status := PLAYLIST_STOPPED } } }
        if b_playexit = true then
          .returned { w2 with trace := w2.trace ++ [Event.vlc_object_kill] }
        else .returned w2
      | some p_item =>
        .goto_check_input
          { pl := env.playlist_PlayItem p_item w1.pl
            trace := w1.trace ++ [Event.playlist_PlayItem p_item w1.pl.p_input] }
    else
      .returned
        { w with pl := { w.pl with
                           status := { w.pl.status with i_status := PLAYLIST_STOPPED } } }

/-- The loop on the label `check_input`: passes are repeated while they end in
`goto check_input`; `out_of_fuel` is reached when `fuel` passes did not reach
the return. -/
def check_input (env : Env) (b_playexit : Bool) : Nat → World → Outcome
  | 0, w => .out_of_fuel w
  | fuel + 1, w =>
    match check_input_pass env b_playexit w with
    | .goto_check_input w1 => check_input env b_playexit fuel w1
    | .returned w1 => .returned w1
    | .assert_failed w1 => .assert_failed w1

/-- `playlist_MainLoop` (engine.c:309-408). `b_playexit` is read once, before
anything else. -/
def playlist_MainLoop (env : Env) (t_check t_stamp : Int) (fuel : Nat) (w : World) :
    Outcome :=
  let b_playexit := w.pl.var_play_and_exit
  match MainLoop_enter env t_check t_stamp w with
  | .goto_check_input w1 => check_input env b_playexit fuel w1
  | .returned w1 => .returned w1
  | .assert_failed w1 => .assert_failed w1

/-- `playlist_IsPlaying` (engine.c:454-458). -/
def playlist_IsPlaying (pl : playlist_private_t) : Bool :=
  decide (pl.status.i_status = PLAYLIST_RUNNING)
    && !(pl.request.b_request && decide (pl.request.i_status = PLAYLIST_STOPPED))

/-- What holds of the playlist when a tick returns: the status is Stopped and
the slot is empty (as far as `playlist_NextItem`, called last, left it so), or
the slot holds a session whose four lifecycle flags are clear. -/
def exit_post (env : Env) (w : World) : Prop :=
  (w.pl.status.i_status = PLAYLIST_STOPPED
    ∧ ((∀ pl, (env.playlist_NextItem pl).2.p_input = pl.p_input) → w.pl.p_input = none))
  ∨ (∃ i : input_thread_t, w.pl.p_input = some i
      ∧ i.b_dead = false ∧ i.b_die = false ∧ i.b_error = false ∧ i.b_eof = false)

/-- The state at the label `check_input` after `k` passes of the loop that each
ended in `goto check_input`; `none` when one of them ended the loop. -/
def after_passes (env : Env) (b_playexit : Bool) : Nat → World → Option World
  | 0, w => some w
  | k + 1, w =>
    match check_input_pass env b_playexit w with
    | .goto_check_input w1 => after_passes env b_playexit k w1
    | .returned _ => none
    | .assert_failed _ => none

/-- The world `w2` continues `w1`: its trace is the trace of `w1` followed by
events that all satisfy `P`. -/
def Extends (P : Event → Prop) (w1 w2 : World) : Prop :=
  ∃ evs : List Event, w2.trace = w1.trace ++ evs ∧ ∀ e ∈ evs, P e

/-- Recognises the call of `ResetCurrentlyPlaying`. -/
def Event.isReset : Event → Bool
  | .ResetCurrentlyPlaying _ _ => true
  | _ => false

/-- Recognises the calls that take an input out of the playlist: the detaching
of its stream output and the three calls of `playlist_release_current_input`.
Returns the input concerned. -/
def Event.removed : Event → Option input_thread_t
  | .input_DetachSout i => some i
  | .var_DelCallback i => some i
  | .vlc_thread_join i => some i
  | .vlc_object_release i => some i
  | _ => none

/-- Recognises `vlc_object_release`, the last call of a release of the current
input: one such event per input removed. -/
def Event.isRelease : Event → Bool
  | .vlc_object_release _ => true
  | _ => false

/-- The world `w2` continues `w1` and its activity counter is not lower than
that of `w1` minus `D` for each input released in between. -/
def Lowered (D : Int) (w1 w2 : World) : Prop :=
  ∃ evs : List Event, w2.trace = w1.trace ++ evs
    ∧ w1.pl.var_activity - D * (evs.countP Event.isRelease : Nat) ≤ w2.pl.var_activity

/-! ## Concrete playlists used to run the definitions -/

/-- Modelled from the spec: stand-ins for the constant and the functions that
`engine.c` takes from other files, used to run the definitions on concrete
playlists. `DEFAULT_INPUT_ACTIVITY` is 1 (the spec's activity counter goes up
and down by one per session); `ResetCurrentlyPlaying` clears the reset flag;
`input_StopThread` raises `b_die`; `input_DetachSout` hands out the pipeline
named by the input; `playlist_NextItem` consumes the request and takes the
first item of `current`, if any; `playlist_PlayItem` puts a fresh running
session for the item into the slot, sets the status to Running and counts the
session in `activity`; during the sleep the input in the slot reaches
`b_dead`. -/
def env_simple : Env where
  DEFAULT_INPUT_ACTIVITY := 1
  ResetCurrentlyPlaying := fun _ _ pl => { pl with b_reset_currently_playing := false }
  input_StopThread := fun i => { i with b_die := true }
  input_DetachSout := fun i => some i.priv
  playlist_NextItem := fun pl =>
    (pl.current.head?,
     { pl with current := pl.current.tail
               request := { pl.request with b_request := false } })
  playlist_PlayItem := fun p_item pl =>
    { pl with
        p_input := some { b_die := false, b_dead := false, b_error := false,
                          b_eof := false, sout_keep := false, priv := p_item.i_id.toNat }
        status := { pl.status with p_item := some p_item, i_status := PLAYLIST_RUNNING }
        var_activity := pl.var_activity + 1 }
  msleep := fun pl =>
    { pl with p_input := pl.p_input.map (fun i => { i with b_dead := true }) }

/-- A freshly created playlist (engine.c:86-96 and 150-153), lock held. -/
def pl_created : playlist_private_t where
  locked := true
  b_reset_currently_playing := true
  last_rebuild_date := 0
  current := []
  i_current_index := 0
  p_input := none
  p_sout := none
  request := { b_request := false, i_status := PLAYLIST_STOPPED, p_item := none, p_node := none }
  status := { p_item := none, p_node := none, i_status := PLAYLIST_STOPPED }
  var_play_and_exit := false
  var_random := false
  var_activity := 0

/-- The created playlist, nothing called yet. -/
def w_created : World where
  pl := pl_created
  trace := []

/-- The created playlist told to run, with `play-and-exit` set and no item. -/
def w_running : World where
  pl := { pl_created with
            status := { pl_created.status with i_status := PLAYLIST_RUNNING }
            var_play_and_exit := true }
  trace := []

/-- A running playlist with a pending request for the status `i_status`. -/
def pl_requested (i_status : Int) : playlist_private_t :=
  { pl_created with
      status := { pl_created.status with i_status := PLAYLIST_RUNNING }
      request := { pl_created.request with b_request := true, i_status := i_status } }

/-- An input that was asked to stop and has not exited yet: `b_die` set,
`b_dead` clear, at end of file. -/
def input_dying : input_thread_t where
  b_die := true
  b_dead := false
  b_error := false
  b_eof := true
  sout_keep := false
  priv := 42

/-- A running playlist holding a dying input, with a pending stop request. -/
def w_dying : World where
  pl := { pl_requested PLAYLIST_STOPPED with
            b_reset_currently_playing := false
            p_input := some input_dying
            var_activity := 1 }
  trace := []

/-- An input playing its item: no lifecycle flag set. -/
def input_playing : input_thread_t where
  b_die := false
  b_dead := false
  b_error := false
  b_eof := false
  sout_keep := false
  priv := 7

/-- The last item of the playlist has reached its end: status Running, the
session in the slot at end of file, nothing left to play, `play-and-exit`
set. -/
def w_eof : World where
  pl := { pl_created with
            b_reset_currently_playing := false
            p_input := some { input_playing with b_eof := true }
            status := { pl_created.status with i_status := PLAYLIST_RUNNING }
            var_play_and_exit := true
            var_activity := 1 }
  trace := []

/-- A stop request arrives during playback: status Running, a playing session
in the slot, a request for the status Stopped pending. -/
def w_stop_request : World where
  pl := { pl_requested PLAYLIST_STOPPED with
            b_reset_currently_playing := false
            p_input := some input_playing
            var_activity := 1 }
  trace := []

/-- The item used in the concrete playlists. -/
def item_A : playlist_item_t where
  i_id := 7
  i_flags := 0

/-- A stopped playlist with one item and a pending request to run. -/
def w_play_request : World where
  pl := { pl_created with
            current := [item_A]
            request := { pl_created.request with
                           b_request := true, i_status := PLAYLIST_RUNNING } }
  trace := []

/-- The created playlist told to run, with one item to play. -/
def w_one_item : World where
  pl := { pl_created with
            current := [item_A]
            status := { pl_created.status with i_status := PLAYLIST_RUNNING } }
  trace := []

/-- An input that has exited: `b_die` and `b_dead` set. -/
def input_dead (keep : Bool) : input_thread_t where
  b_die := true
  b_dead := true
  b_error := false
  b_eof := false
  sout_keep := keep
  priv := 42

/-- A stopped playlist still holding a dead input, the carryover slot holding
`p_sout`, the activity counter at `activity`. -/
def w_dead (keep : Bool) (p_sout : Option sout_instance_t) (activity : Int) : World where
  pl := { pl_created with
            b_reset_currently_playing := false
            p_input := some (input_dead keep)
            p_sout := p_sout
            var_activity := activity }
  trace := []

/-! ## Traces: what a pass, the loop and a tick append -/

theorem Extends_refl (P : Event → Prop) (w : World) : Extends P w w :=
  ⟨[], by simp, by simp⟩

theorem Extends_trans {P : Event → Prop} {w1 w2 w3 : World}
    (h12 : Extends P w1 w2) (h23 : Extends P w2 w3) : Extends P w1 w3 := by
  obtain ⟨e1, h1, p1⟩ := h12
  obtain ⟨e2, h2, p2⟩ := h23
  refine ⟨e1 ++ e2, by rw [h2, h1, List.append_assoc], ?_⟩
  intro e he
  rcases List.mem_append.mp he with h | h
  · exact p1 e h
  · exact p2 e h

theorem Extends_mono {P Q : Event → Prop} {w1 w2 : World} (hPQ : ∀ e, P e → Q e)
    (h : Extends P w1 w2) : Extends Q w1 w2 := by
  obtain ⟨evs, h1, p1⟩ := h
  exact ⟨evs, h1, fun e he => hPQ e (p1 e he)⟩

theorem Extends_of_trace {P : Event → Prop} {w1 w2 : World} (evs : List Event)
    (h : w2.trace = w1.trace ++ evs) (hP : ∀ e ∈ evs, P e) : Extends P w1 w2 :=
  ⟨evs, h, hP⟩

theorem stop_for_request_input (env : Env) (w : World) (p0 : input_thread_t)
    (h : w.pl.p_input = some p0) :
    (stop_for_request env w p0).pl.p_input = some (input_after_request env w p0) := by
  unfold stop_for_request input_after_request
  split <;> simp [h]

theorem stop_for_request_extends (P : Event → Prop) (env : Env) (w : World)
    (p0 : input_thread_t) (hstop : ∀ i, P (Event.input_StopThread i)) :
    Extends P w (stop_for_request env w p0) := by
  unfold stop_for_request
  split
  · exact Extends_of_trace [Event.input_StopThread p0] rfl (by simpa using hstop p0)
  · exact Extends_refl P w

theorem release_extends (P : Event → Prop) (w : World) (i : input_thread_t)
    (hin : w.pl.p_input = some i)
    (hrel : P (Event.var_DelCallback i) ∧ P (Event.vlc_thread_join i)
      ∧ P (Event.vlc_object_release i)) :
    ∀ w2, playlist_release_current_input w = Ret.returned w2 ∨
        playlist_release_current_input w = Ret.assert_failed w2 → Extends P w w2 := by
  intro w2 h
  unfold playlist_release_current_input at h
  split at h
  · rcases h with h | h
    · cases h
    · cases h; exact Extends_refl P w
  · rw [hin] at h
    rcases h with h | h
    · cases h
      refine Extends_of_trace _ rfl ?_
      intro e he
      simp at he
      rcases he with rfl | rfl | rfl
      · exact hrel.1
      · exact hrel.2.1
      · exact hrel.2.2
    · cases h

theorem remove_dead_input_extends (P : Event → Prop) (env : Env) (w : World)
    (i : input_thread_t) (hin : w.pl.p_input = some i)
    (hrel : P (Event.input_DetachSout i) ∧ P (Event.var_DelCallback i)
      ∧ P (Event.vlc_thread_join i) ∧ P (Event.vlc_object_release i)) :
    Extends P w (remove_dead_input env w i).world := by
  unfold remove_dead_input
  split
  · exact Extends_refl P w
  · have h1 : Extends P w
        (if i.sout_keep = true then
          ({ pl := { w.pl with p_sout := env.input_DetachSout i }
             trace := w.trace ++ [Event.input_DetachSout i] } : World)
        else w) := by
      split
      · exact Extends_of_trace [Event.input_DetachSout i] rfl (by simpa using hrel.1)
      · exact Extends_refl P w
    have hin1 : (if i.sout_keep = true then
          ({ pl := { w.pl with p_sout := env.input_DetachSout i }
             trace := w.trace ++ [Event.input_DetachSout i] } : World)
        else w).pl.p_input = some i := by
      split <;> simp [hin]
    have h2 := release_extends P _ i hin1 hrel.2
    simp only []
    split
    · next w2 heq =>
      have := h2 w2 (Or.inl heq)
      obtain ⟨evs, ht, hp⟩ := Extends_trans h1 this
      exact ⟨evs, by simpa [Step.world] using ht, hp⟩
    · next w2 heq =>
      exact Extends_trans h1 (h2 w2 (Or.inr heq))

/-- One pass appends only events allowed by `P`, when `P` allows every call the
pass can make in the state in which it makes it. -/
theorem check_input_pass_extends (P : Event → Prop) (env : Env) (b : Bool) (w : World)
    (hstop : ∀ i, P (Event.input_StopThread i))
    (hrel : ∀ i, i.b_dead = true → P (Event.input_DetachSout i)
      ∧ P (Event.var_DelCallback i) ∧ P (Event.vlc_thread_join i)
      ∧ P (Event.vlc_object_release i))
    (hsleep : P Event.msleep)
    (hnext : ∀ x, P (Event.playlist_NextItem x))
    (hplay : ∀ pl x, pl.p_input = none →
      P (Event.playlist_PlayItem x (env.playlist_NextItem pl).2.p_input))
    (hkill : P Event.vlc_object_kill) :
    Extends P w (check_input_pass env b w).world := by
  unfold check_input_pass
  split
  · next p0 hin =>
    have hs := stop_for_request_extends P env w p0 hstop
    have hi := stop_for_request_input env w p0 hin
    simp only []
    split
    · next hdead =>
      exact Extends_trans hs (remove_dead_input_extends P env _ _ hi (hrel _ hdead))
    · split
      · refine Extends_trans hs (Extends_of_trace [Event.msleep] rfl ?_)
        simpa using hsleep
      · split
        · refine Extends_trans hs (Extends_of_trace [Event.input_StopThread _] rfl ?_)
          simpa using hstop _
        · exact hs
  · next hin =>
    simp only []
    split
    · split
      · split
        · refine Extends_of_trace
            [Event.playlist_NextItem (env.playlist_NextItem w.pl).1, Event.vlc_object_kill]
            (by simp [Step.world]) ?_
          intro e he
          simp at he
          rcases he with rfl | rfl
          · exact hnext _
          · exact hkill
        · refine Extends_of_trace [Event.playlist_NextItem (env.playlist_NextItem w.pl).1]
            (by simp [Step.world]) ?_
          simpa using hnext _
      · next p_item _ =>
        refine Extends_of_trace
          [Event.playlist_NextItem (env.playlist_NextItem w.pl).1,
           Event.playlist_PlayItem p_item (env.playlist_NextItem w.pl).2.p_input]
          (by simp [Step.world]) ?_
        intro e he
        simp at he
        rcases he with rfl | rfl
        · exact hnext _
        · exact hplay _ _ hin
    · exact Extends_of_trace [] (by simp [Step.world]) (by simp)

/-- The loop appends only events allowed by `P`, under the conditions of
`check_input_pass_extends`. -/
theorem check_input_extends (P : Event → Prop) (env : Env) (b : Bool)
    (hstop : ∀ i, P (Event.input_StopThread i))
    (hrel : ∀ i, i.b_dead = true → P (Event.input_DetachSout i)
      ∧ P (Event.var_DelCallback i) ∧ P (Event.vlc_thread_join i)
      ∧ P (Event.vlc_object_release i))
    (hsleep : P Event.msleep)
    (hnext : ∀ x, P (Event.playlist_NextItem x))
    (hplay : ∀ pl x, pl.p_input = none →
      P (Event.playlist_PlayItem x (env.playlist_NextItem pl).2.p_input))
    (hkill : P Event.vlc_object_kill) :
    ∀ (fuel : Nat) (w : World), Extends P w (check_input env b fuel w).world := by
  intro fuel
  induction fuel with
  | zero => intro w; exact Extends_refl P w
  | succ n ih =>
    intro w
    have hp := check_input_pass_extends P env b w hstop hrel hsleep hnext hplay hkill
    unfold check_input
    split
    · next w1 heq =>
      rw [heq] at hp
      exact Extends_trans hp (ih w1)
    · next w1 heq => rw [heq] at hp; exact hp
    · next w1 heq => rw [heq] at hp; exact hp

/-- The entry of the tick appends at most the call of `ResetCurrentlyPlaying`. -/
theorem MainLoop_enter_extends (P : Event → Prop) (env : Env) (t_check t_stamp : Int)
    (w : World) (hreset : ∀ r c, P (Event.ResetCurrentlyPlaying r c)) :
    Extends P w (MainLoop_enter env t_check t_stamp w).world := by
  unfold MainLoop_enter
  split
  · exact Extends_refl P w
  · split
    · split
      · exact Extends_refl P w
      · exact Extends_of_trace [Event.ResetCurrentlyPlaying _ _] rfl
          (by simpa using hreset _ _)
    · exact Extends_refl P w

/-- The state a tick ends in is the state its loop ends in. -/
theorem playlist_MainLoop_world (env : Env) (t_check t_stamp : Int) (fuel : Nat)
    (w : World) :
    (playlist_MainLoop env t_check t_stamp fuel w).world =
      match MainLoop_enter env t_check t_stamp w with
      | .goto_check_input w1 => (check_input env w.pl.var_play_and_exit fuel w1).world
      | .returned w1 => w1
      | .assert_failed w1 => w1 := by
  unfold playlist_MainLoop
  cases MainLoop_enter env t_check t_stamp w <;> rfl

/-- A tick appends only events allowed by `P`, when `P` allows every call the
tick can make in the state in which it makes it. -/
theorem playlist_MainLoop_extends (P : Event → Prop) (env : Env)
    (t_check t_stamp : Int) (fuel : Nat) (w : World)
    (hreset : ∀ r c, P (Event.ResetCurrentlyPlaying r c))
    (hstop : ∀ i, P (Event.input_StopThread i))
    (hrel : ∀ i, i.b_dead = true → P (Event.input_DetachSout i)
      ∧ P (Event.var_DelCallback i) ∧ P (Event.vlc_thread_join i)
      ∧ P (Event.vlc_object_release i))
    (hsleep : P Event.msleep)
    (hnext : ∀ x, P (Event.playlist_NextItem x))
    (hplay : ∀ pl x, pl.p_input = none →
      P (Event.playlist_PlayItem x (env.playlist_NextItem pl).2.p_input))
    (hkill : P Event.vlc_object_kill) :
    Extends P w (playlist_MainLoop env t_check t_stamp fuel w).world := by
  have he := MainLoop_enter_extends P env t_check t_stamp w hreset
  rw [playlist_MainLoop_world]
  split
  · next w1 heq =>
    rw [heq] at he
    exact Extends_trans he
      (check_input_extends P env _ hstop hrel hsleep hnext hplay hkill fuel w1)
  · next w1 heq => rw [heq] at he; exact he
  · next w1 heq => rw [heq] at he; exact he

/-- The entry of the tick, with the lock held: the order is rebuilt exactly when
the reset flag is set and more than 30000 microseconds have passed. -/
theorem MainLoop_enter_locked (env : Env) (t_check t_stamp : Int) (w : World)
    (hl : w.pl.locked = true) :
    MainLoop_enter env t_check t_stamp w =
      if w.pl.b_reset_currently_playing = true
          ∧ t_check - w.pl.last_rebuild_date > 30000 then
        Step.goto_check_input
          { pl := { env.ResetCurrentlyPlaying w.pl.var_random w.pl.status.p_item w.pl with
                      last_rebuild_date := t_stamp }
            trace := w.trace ++
              [Event.ResetCurrentlyPlaying w.pl.var_random w.pl.status.p_item] }
      else Step.goto_check_input w := by
  unfold MainLoop_enter get_current_status_item
  simp [hl]

/-- The loop never calls `ResetCurrentlyPlaying`. -/
theorem check_input_no_reset (env : Env) (b : Bool) (fuel : Nat) (w : World) :
    ∃ evs : List Event, (check_input env b fuel w).world.trace = w.trace ++ evs
      ∧ evs.countP Event.isReset = 0 := by
  obtain ⟨evs, h1, h2⟩ := check_input_extends (fun e => e.isReset = false) env b
    (by intro i; rfl) (by intro i _; exact ⟨rfl, rfl, rfl, rfl⟩) rfl (by intro x; rfl)
    (by intro pl x _; rfl) rfl fuel w
  refine ⟨evs, h1, ?_⟩
  rw [List.countP_eq_zero]
  intro e he
  simp [h2 e he]

/-- Number of calls of `ResetCurrentlyPlaying` in a tick: one when the tick is
entered with the lock held, the reset flag set and
`t_check - last_rebuild_date > 30000`, none otherwise. -/
theorem playlist_MainLoop_resets (env : Env) (t_check t_stamp : Int) (fuel : Nat)
    (w : World) :
    ∃ evs : List Event,
      (playlist_MainLoop env t_check t_stamp fuel w).world.trace = w.trace ++ evs
      ∧ evs.countP Event.isReset =
          if w.pl.locked = true ∧ w.pl.b_reset_currently_playing = true
              ∧ t_check - w.pl.last_rebuild_date > 30000 then 1 else 0 := by
  rw [playlist_MainLoop_world]
  cases hl : w.pl.locked with
  | false =>
    refine ⟨[], ?_, by simp⟩
    simp [MainLoop_enter, hl]
  | true =>
    rw [MainLoop_enter_locked env t_check t_stamp w hl]
    by_cases hc : w.pl.b_reset_currently_playing = true
        ∧ t_check - w.pl.last_rebuild_date > 30000
    · rw [if_pos hc]
      obtain ⟨evs, h1, h2⟩ := check_input_no_reset env w.pl.var_play_and_exit fuel
        { pl := { env.ResetCurrentlyPlaying w.pl.var_random w.pl.status.p_item w.pl with
                    last_rebuild_date := t_stamp }
          trace := w.trace ++
            [Event.ResetCurrentlyPlaying w.pl.var_random w.pl.status.p_item] }
      refine ⟨Event.ResetCurrentlyPlaying w.pl.var_random w.pl.status.p_item :: evs, ?_, ?_⟩
      · simp only [h1]; simp
      · simp [List.countP_cons, h2, Event.isReset, hc]
    · rw [if_neg hc]
      obtain ⟨evs, h1, h2⟩ := check_input_no_reset env w.pl.var_play_and_exit fuel w
      refine ⟨evs, h1, ?_⟩
      rw [h2]
      simp only [true_and]
      rw [if_neg hc]

/-- A pass that ends in `goto check_input` appends only events allowed by `P`,
when `P` allows the calls such a pass can make; `vlc_object_kill` is not one of
them. -/
theorem check_input_pass_goto_extends (P : Event → Prop) (env : Env) (b : Bool)
    (w w2 : World)
    (hstop : ∀ i, P (Event.input_StopThread i))
    (hrel : ∀ i, P (Event.input_DetachSout i)
      ∧ P (Event.var_DelCallback i) ∧ P (Event.vlc_thread_join i)
      ∧ P (Event.vlc_object_release i))
    (hsleep : P Event.msleep)
    (hnext : ∀ x, P (Event.playlist_NextItem x))
    (hplay : ∀ x slot, P (Event.playlist_PlayItem x slot))
    (h : check_input_pass env b w = Step.goto_check_input w2) :
    Extends P w w2 := by
  have hw : w2 = (check_input_pass env b w).world := by rw [h]; rfl
  cases hin : w.pl.p_input with
  | some p0 =>
    have hs := stop_for_request_extends P env w p0 hstop
    have hi := stop_for_request_input env w p0 hin
    rw [hw]
    unfold check_input_pass
    simp only [hin]
    split
    · exact Extends_trans hs (remove_dead_input_extends P env _ _ hi (hrel _))
    · split
      · refine Extends_trans hs (Extends_of_trace [Event.msleep] rfl ?_)
        simpa using hsleep
      · split
        · refine Extends_trans hs (Extends_of_trace [Event.input_StopThread _] rfl ?_)
          simpa using hstop _
        · exact hs
  | none =>
    simp only [check_input_pass, hin] at h
    by_cases ht : target_status w.pl ≠ PLAYLIST_STOPPED
    · rw [if_pos ht] at h
      cases hr : (env.playlist_NextItem w.pl).1 with
      | none =>
        simp only [hr] at h
        cases b
        · simp only [Bool.false_eq_true, if_false] at h
          cases h
        · simp only [if_true] at h
          cases h
      | some p_item =>
        simp only [hr] at h
        cases h
        refine Extends_of_trace
          [Event.playlist_NextItem (some p_item),
           Event.playlist_PlayItem p_item (env.playlist_NextItem w.pl).2.p_input]
          (by simp) ?_
        intro e he
        simp at he
        rcases he with rfl | rfl
        · exact hnext _
        · exact hplay _ _
    · rw [if_neg ht] at h
      cases h

/-- The passes counted by `after_passes` append only events allowed by `P`. -/
theorem after_passes_extends (P : Event → Prop) (env : Env) (b : Bool)
    (hstop : ∀ i, P (Event.input_StopThread i))
    (hrel : ∀ i, P (Event.input_DetachSout i)
      ∧ P (Event.var_DelCallback i) ∧ P (Event.vlc_thread_join i)
      ∧ P (Event.vlc_object_release i))
    (hsleep : P Event.msleep)
    (hnext : ∀ x, P (Event.playlist_NextItem x))
    (hplay : ∀ x slot, P (Event.playlist_PlayItem x slot)) :
    ∀ (k : Nat) (w w1 : World), after_passes env b k w = some w1 → Extends P w w1 := by
  intro k
  induction k with
  | zero =>
    intro w w1 h
    simp only [after_passes, Option.some.injEq] at h
    rw [← h]
    exact Extends_refl P w
  | succ n ih =>
    intro w w1 h
    unfold after_passes at h
    split at h
    · next w2 heq =>
      exact Extends_trans
        (check_input_pass_goto_extends P env b w w2 hstop hrel hsleep hnext hplay heq)
        (ih w2 w1 h)
    · cases h
    · cases h

/-- The loop, after `k` passes that ended in `goto check_input`, goes on from
the state they reached. -/
theorem check_input_after_passes (env : Env) (b : Bool) :
    ∀ (k : Nat) (w w1 : World), after_passes env b k w = some w1 →
      ∀ n, check_input env b (k + n) w = check_input env b n w1 := by
  intro k
  induction k with
  | zero =>
    intro w w1 h n
    simp only [after_passes, Option.some.injEq] at h
    rw [← h, Nat.zero_add]
  | succ m ih =>
    intro w w1 h n
    unfold after_passes at h
    rw [Nat.succ_add]
    split at h
    · next w2 heq =>
      rw [check_input, heq]
      exact ih w2 w1 h n
    · cases h
    · cases h

/-- The same for a tick that reached the label `check_input` in `w`. -/
theorem playlist_MainLoop_after_passes (env : Env) (t_check t_stamp : Int)
    (k : Nat) (w0 w w1 : World)
    (henter : MainLoop_enter env t_check t_stamp w0 = Step.goto_check_input w)
    (h : after_passes env w0.pl.var_play_and_exit k w = some w1) (n : Nat) :
    playlist_MainLoop env t_check t_stamp (k + n) w0 =
      check_input env w0.pl.var_play_and_exit n w1 := by
  unfold playlist_MainLoop
  simp only [henter]
  exact check_input_after_passes env _ k w w1 h n

/-- Between the entry of a tick and a later pass of its loop, `vlc_object_kill`
is not called. -/
theorem count_kill_after_passes (env : Env) (b : Bool) (k : Nat) (w w1 : World)
    (h : after_passes env b k w = some w1) :
    w1.trace.count Event.vlc_object_kill = w.trace.count Event.vlc_object_kill := by
  obtain ⟨evs, h1, h2⟩ := after_passes_extends (fun e => e ≠ Event.vlc_object_kill) env b
    (by intro i h; cases h)
    (by
      intro i
      exact ⟨(by intro h; cases h), (by intro h; cases h), (by intro h; cases h),
        (by intro h; cases h)⟩)
    (by intro h; cases h) (by intro x h; cases h) (by intro x slot h; cases h) k w w1 h
  rw [h1, List.count_append]
  have : evs.count Event.vlc_object_kill = 0 := by
    rw [List.count_eq_zero]
    intro hm
    exact h2 _ hm rfl
  omega

/-- The entry of a tick does not call `vlc_object_kill`. -/
theorem count_kill_enter (env : Env) (t_check t_stamp : Int) (w0 w : World)
    (h : MainLoop_enter env t_check t_stamp w0 = Step.goto_check_input w) :
    w.trace.count Event.vlc_object_kill = w0.trace.count Event.vlc_object_kill := by
  obtain ⟨evs, h1, h2⟩ := MainLoop_enter_extends (fun e => e ≠ Event.vlc_object_kill)
    env t_check t_stamp w0 (by intro r c h; cases h)
  rw [h] at h1
  simp only [Step.world] at h1
  rw [h1, List.count_append]
  have : evs.count Event.vlc_object_kill = 0 := by
    rw [List.count_eq_zero]
    intro hm
    exact h2 _ hm rfl
  omega

/-! ## The claims -/

/-- C1 (end of playlist). Let `w1` be any state at the label `check_input`, at
any pass of the loop and for any value `b` of `b_playexit`, with no current
session, a target status other than Stopped, and `playlist_NextItem` finding no
item. Then the loop returns in that pass: the status is Stopped, the playlist
is what `playlist_NextItem` left with only the status changed (no session is
started: `playlist_PlayItem` is not called), and the trace gets
`playlist_NextItem` followed by `vlc_object_kill` exactly once if `b` is true
and not at all if it is false. The same holds for the loop started in any
state `w` from which `k` passes lead to `w1`, and for the tick that entered
the loop in `w` with `play-and-exit` equal to `b`: they return that state, and
over the whole loop, respectively the whole tick, `vlc_object_kill` is called
once if `b` is true and never if it is false. -/
theorem C1_end_of_playlist (env : Env) (b : Bool) (fuel : Nat) (w1 : World)
    (hno : w1.pl.p_input = none)
    (htarget : target_status w1.pl ≠ PLAYLIST_STOPPED)
    (hnext : (env.playlist_NextItem w1.pl).1 = none) :
    ∃ w2 : World,
      check_input env b (fuel + 1) w1 = Outcome.returned w2
      ∧ w2.pl.status.i_status = PLAYLIST_STOPPED
      ∧ w2.pl = { (env.playlist_NextItem w1.pl).2 with
                    status := { (env.playlist_NextItem w1.pl).2.status with
                                  i_status := PLAYLIST_STOPPED } }
      ∧ w2.trace = w1.trace ++ Event.playlist_NextItem none ::
          (if b = true then [Event.vlc_object_kill] else [])
      ∧ (∀ x slot, Event.playlist_PlayItem x slot ∈ w2.trace →
          Event.playlist_PlayItem x slot ∈ w1.trace)
      ∧ w2.trace.count Event.vlc_object_kill =
          w1.trace.count Event.vlc_object_kill + (if b = true then 1 else 0)
      ∧ (∀ (k : Nat) (w : World), after_passes env b k w = some w1 →
          check_input env b (k + (fuel + 1)) w = Outcome.returned w2
          ∧ w2.trace.count Event.vlc_object_kill =
              w.trace.count Event.vlc_object_kill + (if b = true then 1 else 0))
      ∧ (∀ (k : Nat) (t_check t_stamp : Int) (w0 w : World),
          w0.pl.var_play_and_exit = b →
          MainLoop_enter env t_check t_stamp w0 = Step.goto_check_input w →
          after_passes env b k w = some w1 →
          playlist_MainLoop env t_check t_stamp (k + (fuel + 1)) w0 = Outcome.returned w2
          ∧ w2.trace.count Event.vlc_object_kill =
              w0.trace.count Event.vlc_object_kill + (if b = true then 1 else 0)) := by
  have hpass : check_input env b (fuel + 1) w1 =
      Outcome.returned
        { pl := { (env.playlist_NextItem w1.pl).2 with
                    status := { (env.playlist_NextItem w1.pl).2.status with
                                  i_status := PLAYLIST_STOPPED } }
          trace := w1.trace ++ Event.playlist_NextItem none ::
            (if b = true then [Event.vlc_object_kill] else []) } := by
    simp only [check_input, check_input_pass, hno, hnext]
    rw [if_pos htarget]
    cases b <;> simp
  have hcount : (w1.trace ++ Event.playlist_NextItem none ::
      (if b = true then [Event.vlc_object_kill] else [])).count Event.vlc_object_kill =
      w1.trace.count Event.vlc_object_kill + (if b = true then 1 else 0) := by
    cases b <;> simp
  refine ⟨_, hpass, rfl, rfl, rfl, ?_, hcount, ?_, ?_⟩
  · intro x slot hm
    cases b <;> simpa using hm
  · intro k w hk
    refine ⟨?_, ?_⟩
    · rw [check_input_after_passes env b k w w1 hk, hpass]
    · rw [← count_kill_after_passes env b k w w1 hk]
      exact hcount
  · intro k t_check t_stamp w0 w hb henter hk
    subst hb
    refine ⟨?_, ?_⟩
    · rw [playlist_MainLoop_after_passes env t_check t_stamp k w0 w w1 henter hk, hpass]
    · rw [← count_kill_enter env t_check t_stamp w0 w henter,
        ← count_kill_after_passes env _ k w w1 hk]
      exact hcount

/-- Witness of C1, the end of the playlist during a tick: the session of the
last item is at end of file and `play-and-exit` is set. The tick stops the
session, waits for it, removes it and, three passes after its entry, finds
nothing to play: it returns with the status Stopped and one
`vlc_object_kill`. -/
theorem C1_end_of_playlist_witness :
    after_passes env_simple true 3 w_eof = some (check_input env_simple true 3 w_eof).world
    ∧ ∃ w2 : World,
      playlist_MainLoop env_simple 0 0 4 w_eof = Outcome.returned w2
      ∧ w2.pl.status.i_status = PLAYLIST_STOPPED
      ∧ w2.pl.p_input = none
      ∧ w2.trace.count Event.vlc_object_kill = 1
      ∧ w2.trace =
          [Event.input_StopThread { input_playing with b_eof := true },
           Event.msleep,
           Event.var_DelCallback { input_playing with b_eof := true, b_die := true,
                                                      b_dead := true },
           Event.vlc_thread_join { input_playing with b_eof := true, b_die := true,
                                                      b_dead := true },
           Event.vlc_object_release { input_playing with b_eof := true, b_die := true,
                                                         b_dead := true },
           Event.playlist_NextItem none, Event.vlc_object_kill] := by
  refine ⟨by decide, ?_⟩
  obtain ⟨w2, _, h2, h3, h4, _, _, _, h8⟩ := C1_end_of_playlist env_simple true 0
    (check_input env_simple true 3 w_eof).world (by decide) (by decide) (by decide)
  obtain ⟨h9, h10⟩ := h8 3 0 0 w_eof w_eof (by decide) (by decide) (by decide)
  refine ⟨w2, h9, h2, ?_, ?_, ?_⟩
  · rw [h3]; decide
  · rw [h10]; decide
  · rw [h4]; decide

/-- C2 (single active session). Every call of `playlist_PlayItem` made by a
tick is made in a pass that found the session slot empty at `check_input`: the
slot at the call is what `playlist_NextItem` left of an empty slot, hence
empty (`p_input` is `NULL`) as `playlist_NextItem` does not itself put a
session there. And `playlist_set_current_input`, by which a session enters the
slot, first releases the session that was there, so that the slot then holds
the new session and nothing else. -/
theorem C2_single_active_session (env : Env) (t_check t_stamp : Int) (fuel : Nat)
    (w : World) :
    (∃ evs : List Event,
      (playlist_MainLoop env t_check t_stamp fuel w).world.trace = w.trace ++ evs
      ∧ ∀ x slot, Event.playlist_PlayItem x slot ∈ evs →
          (∃ pl : playlist_private_t, pl.p_input = none
            ∧ slot = (env.playlist_NextItem pl).2.p_input)
          ∧ ((∀ pl, (env.playlist_NextItem pl).2.p_input = pl.p_input) → slot = none))
    ∧ (∀ i, w.pl.locked = true →
        ∃ w2 : World, playlist_set_current_input w (some i) = Ret.returned w2
          ∧ w2.pl.p_input = some i
          ∧ ∀ j, w.pl.p_input = some j → Event.vlc_object_release j ∈ w2.trace) := by
  constructor
  · obtain ⟨evs, h1, h2⟩ := playlist_MainLoop_extends
      (fun e => ∀ x slot, e = Event.playlist_PlayItem x slot →
        ∃ pl : playlist_private_t, pl.p_input = none
          ∧ slot = (env.playlist_NextItem pl).2.p_input)
      env t_check t_stamp fuel w
      (by intro r c x slot h; cases h) (by intro i x slot h; cases h)
      (by
        intro i _
        exact ⟨(by intro x slot h; cases h), (by intro x slot h; cases h),
          (by intro x slot h; cases h), (by intro x slot h; cases h)⟩)
      (by intro x slot h; cases h) (by intro y x slot h; cases h)
      (by intro pl y hpl x slot h; cases h; exact ⟨pl, hpl, rfl⟩)
      (by intro x slot h; cases h)
    refine ⟨evs, h1, fun x slot hm => ?_⟩
    obtain ⟨pl, hpl, hslot⟩ := h2 _ hm x slot rfl
    refine ⟨⟨pl, hpl, hslot⟩, fun hNext => ?_⟩
    rw [hslot, hNext pl, hpl]
  · intro i hl
    unfold playlist_set_current_input playlist_release_current_input
    cases hin : w.pl.p_input with
    | none => simp [hl]
    | some j => simp [hl]

/-- Witness of C2: `playlist_NextItem` of `env_simple` leaves the session slot
alone, and the tick on the playlist with one item starts the session for it
from the empty slot. -/
theorem C2_single_active_session_witness :
    (playlist_MainLoop env_simple 50000 50001 3 w_one_item).world.trace =
        [Event.ResetCurrentlyPlaying false none, Event.playlist_NextItem (some item_A),
          Event.playlist_PlayItem item_A none]
    ∧ ∃ evs : List Event,
      (playlist_MainLoop env_simple 50000 50001 3 w_one_item).world.trace =
        w_one_item.trace ++ evs
      ∧ ∀ x slot, Event.playlist_PlayItem x slot ∈ evs → slot = none := by
  refine ⟨by decide, ?_⟩
  obtain ⟨evs, h1, h2⟩ := (C2_single_active_session env_simple 50000 50001 3 w_one_item).1
  exact ⟨evs, h1, fun x slot hm => (h2 x slot hm).2 (by intro pl; rfl)⟩

/-- C4, counterexample. The created playlist has the reset flag set and
`last_rebuild_date` 0; the tick entered with the clock at exactly 30000 returns
with the playlist as it was: `ResetCurrentlyPlaying` is not called and
`last_rebuild_date` is not stamped. -/
theorem C4_counterexample_exactly_30000 :
    w_created.pl.b_reset_currently_playing = true
    ∧ (30000 : Int) - w_created.pl.last_rebuild_date ≥ 30000
    ∧ playlist_MainLoop env_simple 30000 30001 1 w_created = Outcome.returned w_created
    ∧ w_created.trace = []
    ∧ w_created.pl.last_rebuild_date ≠ 30001 := by
  decide

/-- C4, amended (debounce threshold). A tick entered with the lock held and the
reset flag set calls `ResetCurrentlyPlaying` (with the `random` variable and the
current status item) and stamps `last_rebuild_date` with the new time when
`mdate() - last_rebuild_date` is more than 30000 microseconds, and it is the
only such call of the tick; when the difference is 30000 or less, the tick
goes to `check_input` with the playlist untouched. -/
theorem C4_debounce_threshold (env : Env) (t_check t_stamp : Int) (w : World)
    (hl : w.pl.locked = true) (hr : w.pl.b_reset_currently_playing = true) :
    (t_check - w.pl.last_rebuild_date > 30000 →
      MainLoop_enter env t_check t_stamp w =
        Step.goto_check_input
          { pl := { env.ResetCurrentlyPlaying w.pl.var_random w.pl.status.p_item w.pl with
                      last_rebuild_date := t_stamp }
            trace := w.trace ++
              [Event.ResetCurrentlyPlaying w.pl.var_random w.pl.status.p_item] }
      ∧ ∀ fuel, ∃ evs : List Event,
          (playlist_MainLoop env t_check t_stamp fuel w).world.trace = w.trace ++ evs
          ∧ evs.countP Event.isReset = 1)
    ∧ (t_check - w.pl.last_rebuild_date ≤ 30000 →
      MainLoop_enter env t_check t_stamp w = Step.goto_check_input w
      ∧ ∀ fuel, ∃ evs : List Event,
          (playlist_MainLoop env t_check t_stamp fuel w).world.trace = w.trace ++ evs
          ∧ evs.countP Event.isReset = 0) := by
  constructor
  · intro ht
    refine ⟨?_, ?_⟩
    · rw [MainLoop_enter_locked env t_check t_stamp w hl, if_pos ⟨hr, ht⟩]
    · intro fuel
      obtain ⟨evs, h1, h2⟩ := playlist_MainLoop_resets env t_check t_stamp fuel w
      exact ⟨evs, h1, by rw [h2, if_pos ⟨hl, hr, ht⟩]⟩
  · intro ht
    have hn : ¬ (w.pl.b_reset_currently_playing = true
        ∧ t_check - w.pl.last_rebuild_date > 30000) := by
      intro hc
      omega
    refine ⟨?_, ?_⟩
    · rw [MainLoop_enter_locked env t_check t_stamp w hl, if_neg hn]
    · intro fuel
      obtain ⟨evs, h1, h2⟩ := playlist_MainLoop_resets env t_check t_stamp fuel w
      refine ⟨evs, h1, ?_⟩
      rw [h2, if_neg]
      intro hc
      exact hn hc.2

/-- Witness of C4: the created playlist, entered one microsecond later than in
the counterexample, rebuilds the order and stamps the date. -/
theorem C4_debounce_threshold_witness :
    MainLoop_enter env_simple 30001 30002 w_created =
      Step.goto_check_input
        { pl := { pl_created with b_reset_currently_playing := false
                                  last_rebuild_date := 30002 }
          trace := [Event.ResetCurrentlyPlaying false none] } := by
  have h := (C4_debounce_threshold env_simple 30001 30002 w_created (by decide)
    (by decide)).1 (by decide)
  rw [h.1]
  decide

/-- C5, counterexample. Releasing the current input of the created playlist,
which has none, returns normally with the playlist and the trace as they were:
no assertion fails. -/
theorem C5_counterexample_release_without_input :
    w_created.pl.p_input = none
    ∧ playlist_release_current_input w_created = Ret.returned w_created := by
  decide

/-- C5, amended (reap of an already reaped session). Applied to a playlist with
no current session, `playlist_release_current_input` returns at once when the
lock is held, leaving the playlist unchanged and making no call; the only
assertion it can fail is the one on the lock. -/
theorem C5_release_without_input (w : World) (hno : w.pl.p_input = none) :
    (w.pl.locked = true → playlist_release_current_input w = Ret.returned w)
    ∧ (w.pl.locked = false → playlist_release_current_input w = Ret.assert_failed w) := by
  unfold playlist_release_current_input
  constructor
  · intro hl; simp [hl, hno]
  · intro hl; simp [hl]

/-- Witness of C5, on the created playlist. -/
theorem C5_release_without_input_witness :
    playlist_release_current_input w_created = Ret.returned w_created :=
  (C5_release_without_input w_created (by decide)).1 (by decide)

/-- C6 (carryover detach on reap). In a pass of the loop that finds an input in
the slot and observes its `b_dead` set: if the carryover slot `p_sout` is
occupied, the pass, the loop and the tick end in the failed assertion, in a
state whose `p_sout` is the one the pass started with; if the slot is empty
(and the lock is held), the pass releases the input and goes back to
`check_input` with `p_sout` holding what `input_DetachSout` handed out when
the input's `sout-keep` is set, and still empty when it is not. -/
theorem C6_carryover_detach_on_reap (env : Env) (b : Bool) (w : World)
    (p0 : input_thread_t) (hin : w.pl.p_input = some p0)
    (hdead : (input_after_request env w p0).b_dead = true) :
    (w.pl.p_sout ≠ none →
      check_input_pass env b w = Step.assert_failed (stop_for_request env w p0)
      ∧ (stop_for_request env w p0).pl.p_sout = w.pl.p_sout
      ∧ (∀ fuel, check_input env b (fuel + 1) w =
          Outcome.assert_failed (stop_for_request env w p0))
      ∧ ∀ t_check t_stamp w0 fuel,
          MainLoop_enter env t_check t_stamp w0 = Step.goto_check_input w →
          playlist_MainLoop env t_check t_stamp (fuel + 1) w0 =
            Outcome.assert_failed (stop_for_request env w p0))
    ∧ (w.pl.p_sout = none → w.pl.locked = true →
      ∃ w2 : World, check_input_pass env b w = Step.goto_check_input w2
        ∧ w2.pl.p_input = none
        ∧ Event.vlc_object_release (input_after_request env w p0) ∈ w2.trace
        ∧ w2.pl.p_sout =
            if (input_after_request env w p0).sout_keep = true then
              env.input_DetachSout (input_after_request env w p0)
            else none) := by
  have hs : (stop_for_request env w p0).pl.p_sout = w.pl.p_sout := by
    unfold stop_for_request; split <;> rfl
  have hlk : (stop_for_request env w p0).pl.locked = w.pl.locked := by
    unfold stop_for_request; split <;> rfl
  have hi := stop_for_request_input env w p0 hin
  constructor
  · intro hocc
    have hpass : ∀ b, check_input_pass env b w
        = Step.assert_failed (stop_for_request env w p0) := by
      intro b
      unfold check_input_pass
      simp only [hin, hdead, if_true]
      unfold remove_dead_input
      rw [if_pos (by rw [hs]; exact hocc)]
    refine ⟨hpass b, hs, ?_, ?_⟩
    · intro fuel
      simp only [check_input, hpass]
    · intro t_check t_stamp w0 fuel henter
      simp only [playlist_MainLoop, henter, check_input, hpass]
  · intro hempty hl
    unfold check_input_pass
    simp only [hin, hdead, if_true]
    unfold remove_dead_input
    rw [if_neg (by rw [hs, hempty]; simp)]
    unfold playlist_release_current_input
    cases hk : (input_after_request env w p0).sout_keep
    · simp [hi, hlk, hl, hs, hempty]
    · simp [hi, hlk, hl]

/-- Witness of C6: with `sout-keep` set and the slot empty, the pass leaves the
pipeline of the dead input in the slot; with the slot occupied the tick fails
the assertion. -/
theorem C6_carryover_detach_on_reap_witness :
    (∃ w2 : World,
      check_input_pass env_simple false (w_dead true none 1) = Step.goto_check_input w2
      ∧ w2.pl.p_input = none ∧ w2.pl.p_sout = some 42)
    ∧ playlist_MainLoop env_simple 0 0 1 (w_dead true (some 5) 1) =
        Outcome.assert_failed (w_dead true (some 5) 1) := by
  constructor
  · obtain ⟨w2, h1, h2, _, h4⟩ :=
      (C6_carryover_detach_on_reap env_simple false (w_dead true none 1) (input_dead true)
        (by decide) (by decide)).2 (by decide) (by decide)
    exact ⟨w2, h1, h2, by rw [h4]; decide⟩
  · decide

/-! ### The activity counter -/

theorem Lowered_refl (D : Int) (w : World) : Lowered D w w :=
  ⟨[], by simp, by simp⟩

theorem Lowered_trans {D : Int} {w1 w2 w3 : World}
    (h12 : Lowered D w1 w2) (h23 : Lowered D w2 w3) : Lowered D w1 w3 := by
  obtain ⟨e1, h1, p1⟩ := h12
  obtain ⟨e2, h2, p2⟩ := h23
  refine ⟨e1 ++ e2, by rw [h2, h1, List.append_assoc], ?_⟩
  rw [List.countP_append]
  push_cast
  rw [mul_add]
  linarith

/-- A continuation without release whose counter is not lower. -/
theorem Lowered_quiet {D : Int} {w1 w2 : World} (evs : List Event)
    (h : w2.trace = w1.trace ++ evs) (hq : evs.countP Event.isRelease = 0)
    (ha : w1.pl.var_activity ≤ w2.pl.var_activity) : Lowered D w1 w2 :=
  ⟨evs, h, by rw [hq]; simpa using ha⟩

theorem stop_for_request_lowered (D : Int) (env : Env) (w : World) (p0 : input_thread_t) :
    Lowered D w (stop_for_request env w p0) := by
  unfold stop_for_request
  split
  · exact Lowered_quiet [Event.input_StopThread p0] rfl (by simp [Event.isRelease])
      (le_refl _)
  · exact Lowered_refl D w

theorem remove_dead_input_lowered (env : Env) (w : World) (i : input_thread_t)
    (hin : w.pl.p_input = some i) :
    Lowered env.DEFAULT_INPUT_ACTIVITY w (remove_dead_input env w i).world := by
  unfold remove_dead_input playlist_release_current_input
  split
  · exact Lowered_refl _ w
  · cases hk : i.sout_keep <;> cases hl : w.pl.locked <;>
      simp [hl, hin, Step.world, Lowered, Event.isRelease, List.countP_cons]

/-- One pass lowers the activity counter by at most `DEFAULT_INPUT_ACTIVITY` per
input it releases, when the functions outside `engine.c` do not lower it. -/
theorem check_input_pass_lowered (env : Env) (b : Bool) (w : World)
    (hN : ∀ pl, pl.var_activity ≤ (env.playlist_NextItem pl).2.var_activity)
    (hP : ∀ x pl, pl.var_activity ≤ (env.playlist_PlayItem x pl).var_activity)
    (hS : ∀ pl, pl.var_activity ≤ (env.msleep pl).var_activity) :
    Lowered env.DEFAULT_INPUT_ACTIVITY w (check_input_pass env b w).world := by
  unfold check_input_pass
  split
  · next p0 hin =>
    have hs := stop_for_request_lowered env.DEFAULT_INPUT_ACTIVITY env w p0
    simp only []
    split
    · exact Lowered_trans hs
        (remove_dead_input_lowered env _ _ (stop_for_request_input env w p0 hin))
    · split
      · refine Lowered_trans hs (Lowered_quiet [Event.msleep] rfl
          (by simp [Event.isRelease]) ?_)
        simpa [Step.world] using hS { (stop_for_request env w p0).pl with locked := false }
      · split
        · exact Lowered_trans hs (Lowered_quiet [Event.input_StopThread _] rfl
            (by simp [Event.isRelease]) (le_refl _))
        · exact hs
  · next hin =>
    simp only []
    split
    · split
      · split
        · exact Lowered_quiet
            [Event.playlist_NextItem (env.playlist_NextItem w.pl).1, Event.vlc_object_kill]
            (by simp [Step.world]) (by simp [Event.isRelease])
            (by simpa [Step.world] using hN w.pl)
        · exact Lowered_quiet [Event.playlist_NextItem (env.playlist_NextItem w.pl).1]
            (by simp [Step.world]) (by simp [Event.isRelease])
            (by simpa [Step.world] using hN w.pl)
      · next p_item _ =>
        exact Lowered_quiet
          [Event.playlist_NextItem (env.playlist_NextItem w.pl).1,
           Event.playlist_PlayItem p_item (env.playlist_NextItem w.pl).2.p_input]
          (by simp [Step.world]) (by simp [Event.isRelease])
          (by
            simp only [Step.world]
            exact le_trans (hN w.pl) (hP _ _))
    · exact Lowered_quiet [] (by simp [Step.world]) (by simp) (by simp [Step.world])

theorem check_input_lowered (env : Env) (b : Bool)
    (hN : ∀ pl, pl.var_activity ≤ (env.playlist_NextItem pl).2.var_activity)
    (hP : ∀ x pl, pl.var_activity ≤ (env.playlist_PlayItem x pl).var_activity)
    (hS : ∀ pl, pl.var_activity ≤ (env.msleep pl).var_activity) :
    ∀ (fuel : Nat) (w : World),
      Lowered env.DEFAULT_INPUT_ACTIVITY w (check_input env b fuel w).world := by
  intro fuel
  induction fuel with
  | zero => intro w; exact Lowered_refl _ w
  | succ n ih =>
    intro w
    have hp := check_input_pass_lowered env b w hN hP hS
    unfold check_input
    split
    · next w1 heq =>
      rw [heq] at hp
      exact Lowered_trans hp (ih w1)
    · next w1 heq => rw [heq] at hp; exact hp
    · next w1 heq => rw [heq] at hp; exact hp

/-- C7, counterexample. A stopped playlist holding a dead input, with the
activity counter at 0 and `DEFAULT_INPUT_ACTIVITY` at 1: the tick releases the
input and returns with the counter at -1. -/
theorem C7_counterexample_negative_activity :
    0 ≤ (w_dead false none 0).pl.var_activity
    ∧ playlist_MainLoop env_simple 0 0 2 (w_dead false none 0) =
        Outcome.returned
          { pl := { pl_created with b_reset_currently_playing := false
                                    var_activity := -1 }
            trace := [Event.var_DelCallback (input_dead false),
                      Event.vlc_thread_join (input_dead false),
                      Event.vlc_object_release (input_dead false)] }
    ∧ ¬ (0 ≤ (playlist_MainLoop env_simple 0 0 2 (w_dead false none 0)).world.pl.var_activity) := by
  decide

/-- C7, amended (activity counter). When the functions outside `engine.c` do not
lower the activity counter, a tick leaves it not lower than its value on entry
minus `DEFAULT_INPUT_ACTIVITY` for each input the tick released; so the counter
is still at least 0 after the tick when on entry it was at least
`DEFAULT_INPUT_ACTIVITY` times the number of inputs released. A pass that
removes a dead input lowers the counter by exactly `DEFAULT_INPUT_ACTIVITY`,
whatever its value. -/
theorem C7_activity_counter (env : Env)
    (hR : ∀ r c pl, pl.var_activity ≤ (env.ResetCurrentlyPlaying r c pl).var_activity)
    (hN : ∀ pl, pl.var_activity ≤ (env.playlist_NextItem pl).2.var_activity)
    (hP : ∀ x pl, pl.var_activity ≤ (env.playlist_PlayItem x pl).var_activity)
    (hS : ∀ pl, pl.var_activity ≤ (env.msleep pl).var_activity)
    (t_check t_stamp : Int) (fuel : Nat) (w : World) :
    (∃ evs : List Event,
      (playlist_MainLoop env t_check t_stamp fuel w).world.trace = w.trace ++ evs
      ∧ w.pl.var_activity - env.DEFAULT_INPUT_ACTIVITY * (evs.countP Event.isRelease : Nat)
          ≤ (playlist_MainLoop env t_check t_stamp fuel w).world.pl.var_activity
      ∧ (env.DEFAULT_INPUT_ACTIVITY * (evs.countP Event.isRelease : Nat) ≤ w.pl.var_activity →
          0 ≤ (playlist_MainLoop env t_check t_stamp fuel w).world.pl.var_activity))
    ∧ (∀ b p0, w.pl.p_input = some p0 → (input_after_request env w p0).b_dead = true →
        w.pl.p_sout = none → w.pl.locked = true →
        ∃ w2 : World, check_input_pass env b w = Step.goto_check_input w2
          ∧ w2.pl.var_activity = w.pl.var_activity - env.DEFAULT_INPUT_ACTIVITY) := by
  constructor
  · have hall : Lowered env.DEFAULT_INPUT_ACTIVITY w
        (playlist_MainLoop env t_check t_stamp fuel w).world := by
      rw [playlist_MainLoop_world]
      cases hl : w.pl.locked with
      | false =>
        have : MainLoop_enter env t_check t_stamp w = Step.assert_failed w := by
          simp [MainLoop_enter, hl]
        rw [this]
        exact Lowered_refl _ w
      | true =>
        rw [MainLoop_enter_locked env t_check t_stamp w hl]
        by_cases hc : w.pl.b_reset_currently_playing = true
            ∧ t_check - w.pl.last_rebuild_date > 30000
        · rw [if_pos hc]
          refine Lowered_trans (Lowered_quiet [Event.ResetCurrentlyPlaying _ _] rfl
            (by simp [Event.isRelease]) ?_) (check_input_lowered env _ hN hP hS fuel _)
          exact hR _ _ _
        · rw [if_neg hc]
          exact check_input_lowered env _ hN hP hS fuel w
    obtain ⟨evs, h1, h2⟩ := hall
    exact ⟨evs, h1, h2, fun h => by linarith⟩
  · intro b p0 hin hdead hempty hl
    have hs : (stop_for_request env w p0).pl.p_sout = w.pl.p_sout := by
      unfold stop_for_request; split <;> rfl
    have hlk : (stop_for_request env w p0).pl.locked = w.pl.locked := by
      unfold stop_for_request; split <;> rfl
    have ha : (stop_for_request env w p0).pl.var_activity = w.pl.var_activity := by
      unfold stop_for_request; split <;> rfl
    have hi := stop_for_request_input env w p0 hin
    unfold check_input_pass
    simp only [hin, hdead, if_true]
    unfold remove_dead_input
    rw [if_neg (by rw [hs, hempty]; simp)]
    unfold playlist_release_current_input
    cases hk : (input_after_request env w p0).sout_keep
    · simp [hi, hlk, hl, ha]
    · simp [hi, hlk, hl, ha]

/-- Witness of C7: in `env_simple` nothing outside `engine.c` lowers the counter;
the tick that removes the dead input of a playlist whose counter is 1 ends
with the counter at 0. -/
theorem C7_activity_counter_witness :
    (∃ evs : List Event,
      (playlist_MainLoop env_simple 0 0 2 (w_dead false none 1)).world.trace =
        (w_dead false none 1).trace ++ evs
      ∧ (w_dead false none 1).pl.var_activity
            - env_simple.DEFAULT_INPUT_ACTIVITY * (evs.countP Event.isRelease : Nat)
          ≤ (playlist_MainLoop env_simple 0 0 2 (w_dead false none 1)).world.pl.var_activity)
    ∧ (playlist_MainLoop env_simple 0 0 2 (w_dead false none 1)).world.pl.var_activity = 0 := by
  constructor
  · obtain ⟨evs, h1, h2, _⟩ := (C7_activity_counter env_simple
      (by intro r c pl; exact le_refl _) (by intro pl; exact le_refl _)
      (by intro x pl; simp [env_simple]) (by intro pl; exact le_refl _)
      0 0 2 (w_dead false none 1)).1
    exact ⟨evs, h1, h2⟩
  · decide

/-- C8 (clearing the session leaves the current item). With the lock held,
`playlist_release_current_input` returns a playlist that differs from the one
it was given in the session slot only, which is empty: current item, current
node, status and pending request are as before. `playlist_set_current_input`
and the removal of a dead input by the main loop leave the status record as it
was too. `set_current_status_item` makes the current item exactly the item
given and changes nothing else. -/
theorem C8_release_keeps_current_item (w : World) (hl : w.pl.locked = true) :
    (∃ w2 : World, playlist_release_current_input w = Ret.returned w2
      ∧ w2.pl = { w.pl with p_input := none }
      ∧ w2.pl.p_input = none
      ∧ w2.pl.status.p_item = w.pl.status.p_item
      ∧ w2.pl.status.p_node = w.pl.status.p_node
      ∧ w2.pl.status.i_status = w.pl.status.i_status
      ∧ w2.pl.request = w.pl.request)
    ∧ (∀ p_input, ∃ w3 : World, playlist_set_current_input w p_input = Ret.returned w3
      ∧ w3.pl.status = w.pl.status)
    ∧ (∀ env i, (remove_dead_input env w i).world.pl.status = w.pl.status)
    ∧ (∀ p_item, ∃ w4 : World, set_current_status_item w p_item = Ret.returned w4
      ∧ w4.pl.status.p_item = p_item
      ∧ w4.pl = { w.pl with status := { w.pl.status with p_item := p_item } }
      ∧ w4.trace = w.trace) := by
  refine ⟨?_, ?_, ?_, ?_⟩
  · unfold playlist_release_current_input
    cases hin : w.pl.p_input with
    | none =>
      refine ⟨w, by simp [hl], ?_, hin, rfl, rfl, rfl, rfl⟩
      rw [← hin]
    | some j =>
      refine ⟨{ pl := { w.pl with p_input := none, locked := true }
                trace := w.trace ++ [Event.var_DelCallback j, Event.vlc_thread_join j,
                                     Event.vlc_object_release j] },
        by simp [hl], ?_, rfl, rfl, rfl, rfl, rfl⟩
      simp [hl]
  · intro p_input
    unfold playlist_set_current_input playlist_release_current_input
    cases hin : w.pl.p_input <;> cases p_input <;> simp [hl]
  · intro env i
    unfold remove_dead_input playlist_release_current_input
    split
    · rfl
    · cases hk : i.sout_keep <;> cases hin : w.pl.p_input <;>
        simp [hl, hin, Step.world]
  · intro p_item
    unfold set_current_status_item
    exact ⟨{ w with pl := { w.pl with status := { w.pl.status with p_item := p_item } } },
      by simp [hl], rfl, rfl, rfl⟩

/-- Witness of C8: releasing the dead input of a stopped playlist empties the
slot and keeps the status record. -/
theorem C8_release_keeps_current_item_witness :
    ∃ w2 : World, playlist_release_current_input (w_dead false none 1) = Ret.returned w2
      ∧ w2.pl.p_input = none
      ∧ w2.pl.status = (w_dead false none 1).pl.status
      ∧ w2.pl.request = (w_dead false none 1).pl.request := by
  obtain ⟨w2, h1, h2, h3, _, _, _, h7⟩ :=
    (C8_release_keeps_current_item (w_dead false none 1) (by decide)).1
  exact ⟨w2, h1, h3, by rw [h2], h7⟩

/-- C9 (effective target status). Let `w1` be any state at the label
`check_input`, at any pass of the loop and for any value `b` of `b_playexit`,
with no current session. The target status is the status of the request when
one is pending and the current status otherwise. When the target is Stopped,
the loop returns in that pass with the status set to Stopped and nothing else
changed, the trace included: no `playlist_NextItem`, no `playlist_PlayItem`,
no `vlc_object_kill`. When the target is not Stopped, the next call is
`playlist_NextItem`. Both hold as well for the loop started in any state `w`
from which `k` passes lead to `w1`, and for the tick that entered the loop in
`w`. -/
theorem C9_effective_target_status (env : Env) (b : Bool) (w1 : World)
    (hno : w1.pl.p_input = none) :
    (w1.pl.request.b_request = true → target_status w1.pl = w1.pl.request.i_status)
    ∧ (w1.pl.request.b_request = false → target_status w1.pl = w1.pl.status.i_status)
    ∧ (target_status w1.pl = PLAYLIST_STOPPED → ∀ fuel,
        check_input env b (fuel + 1) w1 =
          Outcome.returned
            { pl := { w1.pl with
                        status := { w1.pl.status with i_status := PLAYLIST_STOPPED } }
              trace := w1.trace }
        ∧ (∀ (k : Nat) (w : World), after_passes env b k w = some w1 →
            check_input env b (k + (fuel + 1)) w =
              Outcome.returned
                { pl := { w1.pl with
                            status := { w1.pl.status with i_status := PLAYLIST_STOPPED } }
                  trace := w1.trace })
        ∧ (∀ (k : Nat) (t_check t_stamp : Int) (w0 w : World),
            w0.pl.var_play_and_exit = b →
            MainLoop_enter env t_check t_stamp w0 = Step.goto_check_input w →
            after_passes env b k w = some w1 →
            playlist_MainLoop env t_check t_stamp (k + (fuel + 1)) w0 =
              Outcome.returned
                { pl := { w1.pl with
                            status := { w1.pl.status with i_status := PLAYLIST_STOPPED } }
                  trace := w1.trace }))
    ∧ (target_status w1.pl ≠ PLAYLIST_STOPPED → ∀ fuel,
        (∃ evs : List Event,
          (check_input env b (fuel + 1) w1).world.trace =
            w1.trace ++ Event.playlist_NextItem (env.playlist_NextItem w1.pl).1 :: evs)
        ∧ (∀ (k : Nat) (w : World), after_passes env b k w = some w1 →
            ∃ evs : List Event,
              (check_input env b (k + (fuel + 1)) w).world.trace =
                w1.trace ++ Event.playlist_NextItem (env.playlist_NextItem w1.pl).1 :: evs)
        ∧ (∀ (k : Nat) (t_check t_stamp : Int) (w0 w : World),
            w0.pl.var_play_and_exit = b →
            MainLoop_enter env t_check t_stamp w0 = Step.goto_check_input w →
            after_passes env b k w = some w1 →
            ∃ evs : List Event,
              (playlist_MainLoop env t_check t_stamp (k + (fuel + 1)) w0).world.trace =
                w1.trace ++ Event.playlist_NextItem (env.playlist_NextItem w1.pl).1 :: evs)) := by
  refine ⟨?_, ?_, ?_, ?_⟩
  · intro h; simp [target_status, h]
  · intro h; simp [target_status, h]
  · intro ht fuel
    have hpass : check_input env b (fuel + 1) w1 =
        Outcome.returned
          { pl := { w1.pl with
                      status := { w1.pl.status with i_status := PLAYLIST_STOPPED } }
            trace := w1.trace } := by
      simp only [check_input, check_input_pass, hno]
      rw [if_neg (by simp [ht])]
    refine ⟨hpass, ?_, ?_⟩
    · intro k w hk
      rw [check_input_after_passes env b k w w1 hk, hpass]
    · intro k t_check t_stamp w0 w hb henter hk
      subst hb
      rw [playlist_MainLoop_after_passes env t_check t_stamp k w0 w w1 henter hk, hpass]
  · intro ht fuel
    have hpass : ∃ evs : List Event,
        (check_input env b (fuel + 1) w1).world.trace =
          w1.trace ++ Event.playlist_NextItem (env.playlist_NextItem w1.pl).1 :: evs := by
      simp only [check_input, check_input_pass, hno]
      rw [if_pos ht]
      cases hr : (env.playlist_NextItem w1.pl).1 with
      | none =>
        simp only []
        cases b
        · exact ⟨[], by simp [Outcome.world]⟩
        · exact ⟨[Event.vlc_object_kill], by simp [Outcome.world]⟩
      | some p_item =>
        simp only []
        obtain ⟨evs, h1, _⟩ := check_input_extends (fun _ => True) env b
          (fun _ => trivial) (fun _ _ => ⟨trivial, trivial, trivial, trivial⟩) trivial
          (fun _ => trivial) (fun _ _ _ => trivial) trivial fuel
          { pl := env.playlist_PlayItem p_item (env.playlist_NextItem w1.pl).2
            trace := (w1.trace ++ [Event.playlist_NextItem (some p_item)]) ++
              [Event.playlist_PlayItem p_item (env.playlist_NextItem w1.pl).2.p_input] }
        exact ⟨Event.playlist_PlayItem p_item (env.playlist_NextItem w1.pl).2.p_input :: evs,
          by rw [h1]; simp⟩
    refine ⟨hpass, ?_, ?_⟩
    · intro k w hk
      rw [check_input_after_passes env b k w w1 hk]
      exact hpass
    · intro k t_check t_stamp w0 w hb henter hk
      subst hb
      rw [playlist_MainLoop_after_passes env t_check t_stamp k w0 w w1 henter hk]
      exact hpass

/-- Witness of C9. A stop request during playback: the tick stops the session,
waits for it and removes it; two passes after its entry there is no session,
the status is Running and the stop request is pending, so the target is
Stopped and the tick returns stopped without calling `playlist_NextItem`. And
the stopped playlist with a pending request to run and one item: the target
is Running and the tick calls `playlist_NextItem`. -/
theorem C9_effective_target_status_witness :
    (after_passes env_simple false 2 w_stop_request =
        some (check_input env_simple false 2 w_stop_request).world
      ∧ (check_input env_simple false 2 w_stop_request).world.pl.status.i_status
          = PLAYLIST_RUNNING
      ∧ (check_input env_simple false 2 w_stop_request).world.pl.request.b_request = true
      ∧ playlist_MainLoop env_simple 0 0 3 w_stop_request =
          Outcome.returned
            { pl := { pl_requested PLAYLIST_STOPPED with
                        b_reset_currently_playing := false
                        status := { pl_created.status with i_status := PLAYLIST_STOPPED }
                        var_activity := 0 }
              trace := [Event.input_StopThread input_playing, Event.msleep,
                Event.var_DelCallback { input_playing with b_die := true, b_dead := true },
                Event.vlc_thread_join { input_playing with b_die := true, b_dead := true },
                Event.vlc_object_release { input_playing with b_die := true,
                                                              b_dead := true }] })
    ∧ w_play_request.pl.status.i_status = PLAYLIST_STOPPED
    ∧ ∃ evs : List Event,
        (playlist_MainLoop env_simple 0 0 2 w_play_request).world.trace =
          Event.playlist_NextItem (some item_A) :: evs := by
  constructor
  · refine ⟨by decide, by decide, by decide, ?_⟩
    have h := ((C9_effective_target_status env_simple false
      (check_input env_simple false 2 w_stop_request).world (by decide)).2.2.1
        (by decide) 0).2.2 2 0 0 w_stop_request w_stop_request (by decide) (by decide)
        (by decide)
    rw [h]
    decide
  · refine ⟨by decide, ?_⟩
    have h := ((C9_effective_target_status env_simple false w_play_request
      (by decide)).2.2.2 (by decide) 1).2.2 0 0 0 w_play_request w_play_request
      (by decide) (by decide) (by decide)
    obtain ⟨evs, he⟩ := h
    exact ⟨evs, he⟩

/-- C10 (reap only after dead). Every call a tick makes to take an input out of
the playlist (`input_DetachSout`, and `var_DelCallback`, `vlc_thread_join`,
`vlc_object_release` of `playlist_release_current_input`) is made on an input
whose `b_dead` is set at that moment; and a pass that finds in the slot an
input whose `b_dead` is observed clear, whatever its other flags, makes none of
these calls. -/
theorem C10_reap_only_after_dead (env : Env) (t_check t_stamp : Int) (fuel : Nat)
    (w : World) :
    (∃ evs : List Event,
      (playlist_MainLoop env t_check t_stamp fuel w).world.trace = w.trace ++ evs
      ∧ ∀ e ∈ evs, ∀ i, e.removed = some i → i.b_dead = true)
    ∧ (∀ b p0, w.pl.p_input = some p0 → (input_after_request env w p0).b_dead = false →
        ∃ evs : List Event, (check_input_pass env b w).world.trace = w.trace ++ evs
          ∧ ∀ e ∈ evs, e.removed = none) := by
  constructor
  · exact playlist_MainLoop_extends (fun e => ∀ i, e.removed = some i → i.b_dead = true)
      env t_check t_stamp fuel w
      (by intro r c i h; cases h) (by intro j i h; cases h)
      (by
        intro j hj
        refine ⟨?_, ?_, ?_, ?_⟩ <;>
        · intro i h
          simp only [Event.removed, Option.some.injEq] at h
          rw [← h]; exact hj)
      (by intro i h; cases h) (by intro x i h; cases h)
      (by intro pl x _ i h; cases h) (by intro i h; cases h)
  · intro b p0 hin hnd
    have hs := stop_for_request_extends (fun e => e.removed = none) env w p0 (fun _ => rfl)
    show Extends (fun e => e.removed = none) w (check_input_pass env b w).world
    unfold check_input_pass
    simp only [hin]
    rw [if_neg (by rw [hnd]; simp)]
    split
    · exact Extends_trans hs (Extends_of_trace [Event.msleep] rfl (by simp [Event.removed]))
    · split
      · exact Extends_trans hs (Extends_of_trace [Event.input_StopThread _] rfl
          (by simp [Event.removed]))
      · exact hs

/-- Witness of C10: the tick on a stopped playlist holding a dead input detaches
and releases that input, whose `b_dead` is set. -/
theorem C10_reap_only_after_dead_witness :
    (playlist_MainLoop env_simple 0 0 2 (w_dead true none 1)).world.trace =
        [Event.input_DetachSout (input_dead true), Event.var_DelCallback (input_dead true),
          Event.vlc_thread_join (input_dead true), Event.vlc_object_release (input_dead true)]
    ∧ (input_dead true).b_dead = true
    ∧ ∃ evs : List Event,
        (playlist_MainLoop env_simple 0 0 2 (w_dead true none 1)).world.trace =
          (w_dead true none 1).trace ++ evs
        ∧ ∀ e ∈ evs, ∀ i, e.removed = some i → i.b_dead = true :=
  ⟨by decide, by decide, (C10_reap_only_after_dead env_simple 0 0 2 (w_dead true none 1)).1⟩

/-! ### Stop requests -/

theorem stop_for_request_extends_die (P : Event → Prop) (env : Env) (w : World)
    (p0 : input_thread_t)
    (hstop : ∀ i, i.b_die = false → P (Event.input_StopThread i)) :
    Extends P w (stop_for_request env w p0) := by
  unfold stop_for_request
  split
  · next hc =>
    exact Extends_of_trace [Event.input_StopThread p0] rfl (by simpa using hstop p0 hc.2)
  · exact Extends_refl P w

/-- One pass appends only events allowed by `P`, when `P` allows every call the
pass can make in the state in which it makes it; `input_StopThread` is only
made on an input whose `b_die` is clear. -/
theorem check_input_pass_extends_die (P : Event → Prop) (env : Env) (b : Bool) (w : World)
    (hstop : ∀ i, i.b_die = false → P (Event.input_StopThread i))
    (hrel : ∀ i, i.b_dead = true → P (Event.input_DetachSout i)
      ∧ P (Event.var_DelCallback i) ∧ P (Event.vlc_thread_join i)
      ∧ P (Event.vlc_object_release i))
    (hsleep : P Event.msleep)
    (hnext : ∀ x, P (Event.playlist_NextItem x))
    (hplay : ∀ x slot, P (Event.playlist_PlayItem x slot))
    (hkill : P Event.vlc_object_kill) :
    Extends P w (check_input_pass env b w).world := by
  unfold check_input_pass
  split
  · next p0 hin =>
    have hs := stop_for_request_extends_die P env w p0 hstop
    have hi := stop_for_request_input env w p0 hin
    simp only []
    split
    · next hdead =>
      exact Extends_trans hs (remove_dead_input_extends P env _ _ hi (hrel _ hdead))
    · split
      · refine Extends_trans hs (Extends_of_trace [Event.msleep] rfl ?_)
        simpa using hsleep
      · next hdie =>
        split
        · refine Extends_trans hs (Extends_of_trace [Event.input_StopThread _] rfl ?_)
          simpa using hstop _ (by simpa using hdie)
        · exact hs
  · simp only []
    split
    · split
      · split
        · refine Extends_of_trace
            [Event.playlist_NextItem (env.playlist_NextItem w.pl).1, Event.vlc_object_kill]
            (by simp [Step.world]) ?_
          intro e he
          simp at he
          rcases he with rfl | rfl
          · exact hnext _
          · exact hkill
        · refine Extends_of_trace [Event.playlist_NextItem (env.playlist_NextItem w.pl).1]
            (by simp [Step.world]) ?_
          simpa using hnext _
      · next p_item _ =>
        refine Extends_of_trace
          [Event.playlist_NextItem (env.playlist_NextItem w.pl).1,
           Event.playlist_PlayItem p_item (env.playlist_NextItem w.pl).2.p_input]
          (by simp [Step.world]) ?_
        intro e he
        simp at he
        rcases he with rfl | rfl
        · exact hnext _
        · exact hplay _ _
    · exact Extends_of_trace [] (by simp [Step.world]) (by simp)

/-- The loop appends only events allowed by `P` when every pass does. -/
theorem check_input_extends_of_pass (P : Event → Prop) (env : Env) (b : Bool)
    (hpass : ∀ w, Extends P w (check_input_pass env b w).world) :
    ∀ (fuel : Nat) (w : World), Extends P w (check_input env b fuel w).world := by
  intro fuel
  induction fuel with
  | zero => intro w; exact Extends_refl P w
  | succ n ih =>
    intro w
    have hp := hpass w
    unfold check_input
    split
    · next w1 heq =>
      rw [heq] at hp
      exact Extends_trans hp (ih w1)
    · next w1 heq => rw [heq] at hp; exact hp
    · next w1 heq => rw [heq] at hp; exact hp

/-- A tick appends only events allowed by `P` when its entry and every pass of
its loop do. -/
theorem playlist_MainLoop_extends_of_pass (P : Event → Prop) (env : Env)
    (t_check t_stamp : Int) (fuel : Nat) (w : World)
    (hreset : ∀ r c, P (Event.ResetCurrentlyPlaying r c))
    (hpass : ∀ b w, Extends P w (check_input_pass env b w).world) :
    Extends P w (playlist_MainLoop env t_check t_stamp fuel w).world := by
  have he := MainLoop_enter_extends P env t_check t_stamp w hreset
  rw [playlist_MainLoop_world]
  split
  · next w1 heq =>
    rw [heq] at he
    exact Extends_trans he (check_input_extends_of_pass P env _ (hpass _) fuel w1)
  · next w1 heq => rw [heq] at he; exact he
  · next w1 heq => rw [heq] at he; exact he

/-- C11 (no second stop for a dying session). Every call of `input_StopThread`
made by a tick, for a pending request as for an input in error or at end of
file, is made on an input whose `b_die` is clear at that moment; and a pass
that finds in the slot an input whose `b_die` is set makes no call of
`input_StopThread`, whether a request is pending or not and whatever it
asks. -/
theorem C11_no_second_stop (env : Env) (t_check t_stamp : Int) (fuel : Nat) (w : World) :
    (∃ evs : List Event,
      (playlist_MainLoop env t_check t_stamp fuel w).world.trace = w.trace ++ evs
      ∧ ∀ e ∈ evs, ∀ i, e = Event.input_StopThread i → i.b_die = false)
    ∧ (∀ b p0, w.pl.p_input = some p0 → p0.b_die = true →
        ∃ evs : List Event, (check_input_pass env b w).world.trace = w.trace ++ evs
          ∧ ∀ e ∈ evs, ∀ i, e ≠ Event.input_StopThread i) := by
  constructor
  · exact playlist_MainLoop_extends_of_pass
      (fun e => ∀ i, e = Event.input_StopThread i → i.b_die = false)
      env t_check t_stamp fuel w (by intro r c i h; cases h)
      (fun b w => check_input_pass_extends_die _ env b w
        (by intro j hj i h; cases h; exact hj)
        (by
          intro j _
          exact ⟨(by intro i h; cases h), (by intro i h; cases h),
            (by intro i h; cases h), (by intro i h; cases h)⟩)
        (by intro i h; cases h) (by intro x i h; cases h)
        (by intro x slot i h; cases h) (by intro i h; cases h))
  · intro b p0 hin hdie
    have h1 : stop_for_request env w p0 = w := by
      unfold stop_for_request
      rw [if_neg (by simp [hdie])]
    have h2 : input_after_request env w p0 = p0 := by
      unfold input_after_request
      rw [if_neg (by simp [hdie])]
    show Extends (fun e => ∀ i, e ≠ Event.input_StopThread i) w
      (check_input_pass env b w).world
    unfold check_input_pass
    simp only [hin, h1, h2]
    split
    · exact remove_dead_input_extends _ env w p0 hin
        ⟨(by intro i h; cases h), (by intro i h; cases h),
          (by intro i h; cases h), (by intro i h; cases h)⟩
    · exact Extends_of_trace [Event.msleep] rfl (by simp)

/-- Witness of C11: a dying input at end of file with a stop request pending is
left to die, the pass only sleeps. -/
theorem C11_no_second_stop_witness :
    (check_input_pass env_simple false w_dying).world.trace = [Event.msleep]
    ∧ ∃ evs : List Event, (check_input_pass env_simple false w_dying).world.trace =
        w_dying.trace ++ evs
      ∧ ∀ e ∈ evs, ∀ i, e ≠ Event.input_StopThread i :=
  ⟨by decide,
   (C11_no_second_stop env_simple 0 0 0 w_dying).2 false input_dying (by decide) (by decide)⟩

/-- C12 (`playlist_IsPlaying`). The function returns true exactly when the
status is Running and it is not the case that a request is pending with target
status Stopped. So it is false with a stop request pending, whatever the
status; true with status Running and a pending request for another status than
Stopped; and false with status Stopped, with or without a request. -/
theorem C12_playlist_IsPlaying (pl : playlist_private_t) :
    (playlist_IsPlaying pl = true ↔
      pl.status.i_status = PLAYLIST_RUNNING
      ∧ ¬ (pl.request.b_request = true ∧ pl.request.i_status = PLAYLIST_STOPPED))
    ∧ (pl.request.b_request = true → pl.request.i_status = PLAYLIST_STOPPED →
        playlist_IsPlaying pl = false)
    ∧ (pl.status.i_status = PLAYLIST_RUNNING → pl.request.b_request = true →
        pl.request.i_status ≠ PLAYLIST_STOPPED → playlist_IsPlaying pl = true)
    ∧ (pl.status.i_status = PLAYLIST_STOPPED → playlist_IsPlaying pl = false) := by
  refine ⟨?_, ?_, ?_, ?_⟩
  · unfold playlist_IsPlaying
    cases h : pl.request.b_request <;> simp [h]
  · intro h1 h2
    simp [playlist_IsPlaying, h1, h2]
  · intro h1 h2 h3
    simp [playlist_IsPlaying, h1, h2, h3]
  · intro h1
    simp [playlist_IsPlaying, h1, PLAYLIST_STOPPED, PLAYLIST_RUNNING]

/-- Witness of C12: status Running with a stop request pending is not playing,
status Running with a request to run is playing, the created playlist (status
Stopped) is not. -/
theorem C12_playlist_IsPlaying_witness :
    playlist_IsPlaying (pl_requested PLAYLIST_STOPPED) = false
    ∧ playlist_IsPlaying (pl_requested PLAYLIST_RUNNING) = true
    ∧ playlist_IsPlaying pl_created = false :=
  ⟨(C12_playlist_IsPlaying (pl_requested PLAYLIST_STOPPED)).2.1 (by decide) (by decide),
   (C12_playlist_IsPlaying (pl_requested PLAYLIST_RUNNING)).2.2.1 (by decide) (by decide)
     (by decide),
   (C12_playlist_IsPlaying pl_created).2.2.2 (by decide)⟩

/-! ### The state a tick returns in -/

/-- The removal of a dead input ends in `goto check_input` or in a failed
assertion, never in the return. -/
theorem remove_dead_input_not_returned (env : Env) (w : World) (i : input_thread_t)
    (w2 : World) : remove_dead_input env w i ≠ Step.returned w2 := by
  unfold remove_dead_input
  split
  · intro h; cases h
  · simp only []
    split <;> intro h <;> cases h

/-- The entry of the tick ends at the label or in a failed assertion. -/
theorem MainLoop_enter_not_returned (env : Env) (t_check t_stamp : Int) (w w2 : World) :
    MainLoop_enter env t_check t_stamp w ≠ Step.returned w2 := by
  unfold MainLoop_enter
  split
  · intro h; cases h
  · split
    · split <;> intro h <;> cases h
    · intro h; cases h

/-- A pass that returns leaves the playlist as `exit_post` says. -/
theorem check_input_pass_returned (env : Env) (b : Bool) (w w2 : World)
    (h : check_input_pass env b w = Step.returned w2) : exit_post env w2 := by
  cases hin : w.pl.p_input with
  | some p0 =>
    have hi := stop_for_request_input env w p0 hin
    simp only [check_input_pass, hin] at h
    by_cases hdead : (input_after_request env w p0).b_dead = true
    · rw [if_pos hdead] at h
      exact absurd h (remove_dead_input_not_returned env _ _ w2)
    · rw [if_neg hdead] at h
      by_cases hdie : (input_after_request env w p0).b_die = true
      · rw [if_pos hdie] at h; cases h
      · rw [if_neg hdie] at h
        by_cases hfin : (input_after_request env w p0).b_error = true
            ∨ (input_after_request env w p0).b_eof = true
        · rw [if_pos hfin] at h; cases h
        · rw [if_neg hfin] at h
          cases h
          refine Or.inr ⟨_, hi, ?_, ?_, ?_, ?_⟩
          · simpa using hdead
          · simpa using hdie
          · simpa using fun he => hfin (Or.inl he)
          · simpa using fun he => hfin (Or.inr he)
  | none =>
    simp only [check_input_pass, hin] at h
    by_cases ht : target_status w.pl ≠ PLAYLIST_STOPPED
    · rw [if_pos ht] at h
      cases hr : (env.playlist_NextItem w.pl).1 with
      | none =>
        simp only [hr] at h
        cases b
        · simp only [Bool.false_eq_true, if_false] at h
          cases h
          exact Or.inl ⟨rfl, fun hN => by simp [hN w.pl, hin]⟩
        · simp only [if_true] at h
          cases h
          exact Or.inl ⟨rfl, fun hN => by simp [hN w.pl, hin]⟩
      | some p_item =>
        simp only [hr] at h
        cases h
    · rw [if_neg ht] at h
      cases h
      exact Or.inl ⟨rfl, fun _ => rfl⟩

/-- A loop that returns leaves the playlist as `exit_post` says. -/
theorem check_input_returned (env : Env) (b : Bool) :
    ∀ (fuel : Nat) (w w2 : World),
      check_input env b fuel w = Outcome.returned w2 → exit_post env w2 := by
  intro fuel
  induction fuel with
  | zero => intro w w2 h; simp [check_input] at h
  | succ n ih =>
    intro w w2 h
    unfold check_input at h
    split at h
    · exact ih _ _ h
    · next w1 heq =>
      cases h
      exact check_input_pass_returned env b w _ heq
    · cases h

/-- C13 (tick exit postcondition). Whenever a tick returns, either the status is
Stopped and there is no current session (the slot was found empty by the last
pass, and is empty at the return as `playlist_NextItem` does not fill it), or
the slot holds a session whose `b_dead`, `b_die`, `b_error` and `b_eof` were
all clear when the last pass tested them. And no pass returns when it observes
one of these flags set on the session in the slot: it goes back to
`check_input` or fails the assertion. -/
theorem C13_tick_exit_postcondition (env : Env) (t_check t_stamp : Int) (fuel : Nat)
    (w w2 : World)
    (hret : playlist_MainLoop env t_check t_stamp fuel w = Outcome.returned w2) :
    ((w2.pl.status.i_status = PLAYLIST_STOPPED
        ∧ ((∀ pl, (env.playlist_NextItem pl).2.p_input = pl.p_input) → w2.pl.p_input = none))
      ∨ (∃ i : input_thread_t, w2.pl.p_input = some i
          ∧ i.b_dead = false ∧ i.b_die = false ∧ i.b_error = false ∧ i.b_eof = false))
    ∧ (∀ (b : Bool) (w1 : World) (p0 : input_thread_t), w1.pl.p_input = some p0 →
        ((input_after_request env w1 p0).b_dead = true
          ∨ (input_after_request env w1 p0).b_die = true
          ∨ (input_after_request env w1 p0).b_error = true
          ∨ (input_after_request env w1 p0).b_eof = true) →
        ∀ w3, check_input_pass env b w1 ≠ Step.returned w3) := by
  constructor
  · unfold playlist_MainLoop at hret
    simp only [] at hret
    split at hret
    · exact check_input_returned env _ fuel _ w2 hret
    · next w1 heq => exact absurd heq (MainLoop_enter_not_returned env t_check t_stamp w w1)
    · cases hret
  · intro b w1 p0 hin hflag w3 h
    simp only [check_input_pass, hin] at h
    by_cases hdead : (input_after_request env w1 p0).b_dead = true
    · rw [if_pos hdead] at h
      exact remove_dead_input_not_returned env _ _ w3 h
    · rw [if_neg hdead] at h
      by_cases hdie : (input_after_request env w1 p0).b_die = true
      · rw [if_pos hdie] at h; cases h
      · rw [if_neg hdie] at h
        by_cases hfin : (input_after_request env w1 p0).b_error = true
            ∨ (input_after_request env w1 p0).b_eof = true
        · rw [if_pos hfin] at h; cases h
        · rcases hflag with h1 | h1 | h1 | h1
          · exact hdead h1
          · exact hdie h1
          · exact hfin (Or.inl h1)
          · exact hfin (Or.inr h1)

/-- Witness of C13: the tick on the playlist with one item returns with the
session for that item in the slot, all flags clear; the tick on the created
playlist told to run with nothing to play returns stopped, with no session. -/
theorem C13_tick_exit_postcondition_witness :
    (∃ i : input_thread_t,
      (playlist_MainLoop env_simple 50000 50001 3 w_one_item).world.pl.p_input = some i
      ∧ i.b_dead = false ∧ i.b_die = false ∧ i.b_error = false ∧ i.b_eof = false)
    ∧ (playlist_MainLoop env_simple 50000 50001 3 w_running).world.pl.status.i_status
        = PLAYLIST_STOPPED
    ∧ (playlist_MainLoop env_simple 50000 50001 3 w_running).world.pl.p_input = none := by
  have h1 := (C13_tick_exit_postcondition env_simple 50000 50001 3 w_one_item
    (playlist_MainLoop env_simple 50000 50001 3 w_one_item).world (by decide)).1
  have h2 := (C13_tick_exit_postcondition env_simple 50000 50001 3 w_running
    (playlist_MainLoop env_simple 50000 50001 3 w_running).world (by decide)).1
  refine ⟨?_, ?_, ?_⟩
  · rcases h1 with ⟨hs, _⟩ | h
    · exact absurd hs (by decide)
    · exact h
  · decide
  · rcases h2 with ⟨_, hn⟩ | ⟨i, hi, _⟩
    · exact hn (by intro pl; rfl)
    · have hnone :
          (playlist_MainLoop env_simple 50000 50001 3 w_running).world.pl.p_input = none := by
        decide
      rw [hnone] at hi
      cases hi

end Playlist
